import Mathlib

/- Verification development for the view-management and navigation engine of
   the tv terminal table viewer (Rust sources model.rs and inputter.rs).

   Embedding conventions:
   * usize becomes Nat.  Rust subtraction on usize can underflow (a panic in
     checked builds); plain Nat subtraction in this file truncates at zero,
     and every site where the Rust code could underflow is marked with a
     comment.  A checked variant (checkedSub) is provided where a claim is
     about underflow itself.
   * Instant-typed timestamp fields, the clipboard handle, logging and the
     UIData render cache are not modelled; no claim refers to them.  The
     condition last_data_change - last_update > ZERO at the top of
     Model::update is modelled by the boolean field needs_refresh.
   * Rust panics (indexing out of bounds, unwrap of an empty option) are
     modelled by total functions: list indexing uses getD with a default,
     and operations on an empty view stack return the model unchanged.
     Each such site carries a comment.
   * HashMap-valued caches become association lists. -/

namespace TV

/-- Width of the scrollbar column (ui.rs, SCROLLBAR_WIDTH). -/
def SCROLLBAR_WIDTH : Nat := 1

/-- Height of the table header row (ui.rs, TABLE_HEADER_HEIGHT). -/
def TABLE_HEADER_HEIGHT : Nat := 1

/-- Height of the command/status line (ui.rs, CMDLINE_HEIGH). -/
def CMDLINE_HEIGH : Nat := 1

/-- Modelled from the spec: COLUMN_WIDTH_COLLAPSED_COLUMN is imported by
model.rs from the ui module, but the snapshot of ui.rs does not define it.
Spec 4.2 step 1 fixes a collapsed column to a minimal width wide enough for
one placeholder glyph, and Model::get_collapsed_column renders collapsed
columns with width 3, so the value 3 is used. -/
def COLUMN_WIDTH_COLLAPSED_COLUMN : Nat := 3

/-- Modelled from the spec: COLUMN_WIDTH_MARGIN is likewise missing from the
snapshot of the ui module; spec 4.2 step 1 only calls it a margin added to
the content width.  No claim depends on its value; 1 is used. -/
def COLUMN_WIDTH_MARGIN : Nat := 1

/-- Engine status (model.rs, enum Status). -/
inductive Status
  | EMPTY | READY | LOADING | PROCESSING | QUITTING
deriving DecidableEq

/-- Display status of a column (model.rs, enum ColumnStatus). -/
inductive ColumnStatus
  | NORMAL | EXPANDED | COLLAPSED
deriving DecidableEq

/-- Interaction mode (model.rs, enum Modus). -/
inductive Modus
  | TABLE | RECORD | POPUP | CMDINPUT | HISTOGRAM
deriving DecidableEq

/-- Command-input sub-mode (domain.rs, enum CMDMode). -/
inductive CMDMode
  | SearchTable | SearchInColumn | FilterByColumn | Raw
deriving DecidableEq

/-- The polars dtype of a column, reduced to the variants distinguished by
Model::is_numeric_type; every dtype other than the ten numeric ones behaves
like the catch-all variant there. -/
inductive DType
  | int8 | int16 | int32 | int64
  | uint8 | uint16 | uint32 | uint64
  | float32 | float64
  | other
deriving DecidableEq

/-- Model::is_numeric_type. -/
def is_numeric_type (d : DType) : Bool :=
  match d with
  | .int8 | .int16 | .int32 | .int64 => true
  | .uint8 | .uint16 | .uint32 | .uint64 => true
  | .float32 | .float64 => true
  | .other => false

/-- One dataset column (model.rs, struct Column). -/
structure Column where
  idx : Nat
  name : String
  status : ColumnStatus
  max_width : Nat
  render_width : Nat
  data : List String
  dtype : DType
deriving DecidableEq

instance : Inhabited Column := ⟨⟨0, "", .NORMAL, 0, 0, [], .other⟩⟩

/-- A rendered column projection (model.rs, struct ColumnView). -/
structure ColumnView where
  name : String
  width : Nat
  data : List String
deriving DecidableEq

/-- ColumnView::empty. -/
def ColumnView.empty : ColumnView := { name := "", width := 0, data := [] }

instance : Inhabited ColumnView := ⟨ColumnView.empty⟩

/-- One windowed projection over a row mapping (model.rs, struct TableView).
The reference-counted rows vector becomes a plain list; the histogram cache
becomes an association list. -/
structure TableView where
  name : String
  rows : List Nat
  visible_columns : List Nat
  visible_width : Nat
  curser_row : Nat
  curser_column : Nat
  offset_row : Nat
  offset_column : Nat
  data : List ColumnView
  search_results : List (Nat × Nat)
  search_idx : Nat
  show_index : Bool
  index : ColumnView
  column_histograms : List (Nat × (List Nat × List String))
  heigh : Nat
  width : Nat
deriving DecidableEq

/-- TableView::empty. -/
def TableView.empty : TableView :=
  { name := "", rows := [], visible_columns := [], visible_width := 0,
    curser_row := 0, curser_column := 0, offset_row := 0, offset_column := 0,
    data := [], search_results := [], search_idx := 0, show_index := false,
    index := ColumnView.empty, column_histograms := [], heigh := 0, width := 0 }

instance : Inhabited TableView := ⟨TableView.empty⟩

/-- TableView::build_index: recompute the synthetic index column from the
visible row slice.  The width is the length of the LAST visible index string,
or 3 when the slice is empty (data.last().map(len).unwrap_or(3)). -/
def TableView.build_index (t : TableView) : TableView :=
  let rbegin := t.offset_row
  let rend := min (rbegin + t.heigh) t.rows.length
  let data := ((t.rows.drop rbegin).take (rend - rbegin)).map (fun idx => toString (idx + 1))
  let width := (data.getLast?.map String.length).getD 3
  { t with index := { name := "", width := width, data := data } }

/-- The single-record inspector state (model.rs, struct RecordView), without
its Instant timestamp. -/
structure RecordView where
  table_idx : Nat
  header_data : List String
  header_width : Nat
  header_view : ColumnView
  row_data : List String
  row_width : Nat
  row_view : ColumnView
  record_idx : Nat
  curser_row : Nat
  curser_offset : Nat
  height : Nat
  width : Nat
deriving DecidableEq

/-- RecordView::empty. -/
def RecordView.empty : RecordView :=
  { table_idx := 0, header_data := [], header_width := 0,
    header_view := ColumnView.empty, row_data := [], row_width := 0,
    row_view := ColumnView.empty, record_idx := 0, curser_row := 0,
    curser_offset := 0, height := 0, width := 0 }

/-- The per-column histogram inspector state (model.rs, struct
HistogramView), without its Instant timestamp. -/
structure HistogramView where
  table_idx : Nat
  value_data : List String
  value_width : Nat
  value_view : ColumnView
  count_data : List String
  count_width : Nat
  count_view : ColumnView
  column_idx : Nat
  curser_row : Nat
  curser_offset : Nat
  height : Nat
  width : Nat
deriving DecidableEq

/-- HistogramView::empty. -/
def HistogramView.empty : HistogramView :=
  { table_idx := 0, value_data := [], value_width := 0,
    value_view := ColumnView.empty, count_data := [], count_width := 0,
    count_view := ColumnView.empty, column_idx := 0, curser_row := 0,
    curser_offset := 0, height := 0, width := 0 }

/-- Derived width/height budget (model.rs, struct UILayout). -/
structure UILayout where
  width : Nat
  height : Nat
  table_width : Nat
  table_height : Nat
  index_width : Nat
  index_height : Nat
  statusline_width : Nat
  statusline_height : Nat
deriving DecidableEq

/-- UILayout::from_values.  The three subtractions are usize subtractions in
the source and can underflow for terminals narrower than the scrollbar plus
the index column, or shorter than header plus status line; Nat subtraction
truncates at zero here.  The checked variant below models the underflow. -/
def UILayout.from_values (index_width ui_width ui_height : Nat) : UILayout :=
  let cmdline_heigth := CMDLINE_HEIGH
  let cmdline_width := ui_width
  let table_width := ui_width - SCROLLBAR_WIDTH - index_width
  let table_height := ui_height - cmdline_heigth - TABLE_HEADER_HEIGHT
  let index_height := table_height
  { width := ui_width, height := ui_height,
    table_width := table_width, table_height := table_height,
    index_width := index_width, index_height := index_height,
    statusline_width := cmdline_width, statusline_height := cmdline_heigth }

/-- Subtraction on usize with the panic on underflow made explicit. -/
def checkedSub (a b : Nat) : Option Nat := if b ≤ a then some (a - b) else none

/-- UILayout::from_values with each usize subtraction checked: returns none
exactly when the source arithmetic underflows. -/
def UILayout.from_values_checked (index_width ui_width ui_height : Nat) :
    Option UILayout :=
  if SCROLLBAR_WIDTH ≤ ui_width then
    if index_width ≤ ui_width - SCROLLBAR_WIDTH then
      if CMDLINE_HEIGH ≤ ui_height then
        if TABLE_HEADER_HEIGHT ≤ ui_height - CMDLINE_HEIGH then
          some (UILayout.from_values index_width ui_width ui_height)
        else none
      else none
    else none
  else none

/-- Does the pattern occur as a contiguous run of the list. -/
def listContainsRun {α : Type} [BEq α] (pattern : List α) : List α → Bool
  | [] => pattern.isEmpty
  | c :: rest => pattern.isPrefixOf (c :: rest) || listContainsRun pattern rest

/-- Rust str::contains: case sensitive substring containment, computed per
character.  A byte-level occurrence of one valid UTF-8 string inside
another always starts at a character boundary, so byte-level and
character-level containment agree. -/
def strContains (s term : String) : Bool := listContainsRun term.toList s.toList

/-- Numeric value of a list of decimal digit characters. -/
def digitsVal (cs : List Char) : Nat :=
  cs.foldl (fun a c => a * 10 + (c.toNat - 48)) 0

/-- Split a character list at the first occurrence of a separator. -/
def splitAtChar (sep : Char) : List Char → List Char × Option (List Char)
  | [] => ([], none)
  | x :: xs =>
    if x = sep then ([], some xs)
    else
      let r := splitAtChar sep xs
      (x :: r.1, r.2)

/-- Split a character list at the first exponent marker (e or E). -/
def splitAtExpChar : List Char → List Char × Option (List Char)
  | [] => ([], none)
  | x :: xs =>
    if x = 'e' ∨ x = 'E' then ([], some xs)
    else
      let r := splitAtExpChar xs
      (x :: r.1, r.2)

/-- Parse an unsigned decimal mantissa, digits with at most one decimal
point and at least one digit in total, into numerator and denominator. -/
def parseMantissa (cs : List Char) : Option (Nat × Nat) :=
  let s := splitAtChar '.' cs
  match s.2 with
  | none =>
    if (!s.1.isEmpty) && s.1.all Char.isDigit then some (digitsVal s.1, 1)
    else none
  | some fp =>
    if ((!s.1.isEmpty) || (!fp.isEmpty)) && s.1.all Char.isDigit && fp.all Char.isDigit then
      some ((digitsVal s.1) * 10 ^ fp.length + digitsVal fp, 10 ^ fp.length)
    else none

/-- Parse a decimal exponent with optional sign. -/
def parseExp (cs : List Char) : Option Int :=
  match cs with
  | '+' :: rest =>
    if (!rest.isEmpty) && rest.all Char.isDigit then some ((digitsVal rest : Nat) : Int) else none
  | '-' :: rest =>
    if (!rest.isEmpty) && rest.all Char.isDigit then some (-((digitsVal rest : Nat) : Int)) else none
  | _ =>
    if (!cs.isEmpty) && cs.all Char.isDigit then some ((digitsVal cs : Nat) : Int) else none

/-- Modelled from the spec (and the Rust standard library, which is outside
this repository): the sort comparator of model.rs calls str::parse on f64;
it is modelled as exact decimal parsing into a rational number, accepting an
optional sign, digits with an optional single decimal point (at least one
digit in total) and an optional decimal exponent.  Special float spellings
(inf, NaN) and rounding to binary floating point are not modelled; no claim
depends on them. -/
def parseFloat (str : String) : Option Rat :=
  let cs := str.toList
  let sb : Int × List Char :=
    match cs with
    | '+' :: rest => (1, rest)
    | '-' :: rest => (-1, rest)
    | _ => (1, cs)
  let me := splitAtExpChar sb.2
  match parseMantissa me.1, me.2 with
  | some m, none => some (mkRat (sb.1 * m.1) m.2)
  | some m, some ecs =>
    match parseExp ecs with
    | some e =>
      if 0 ≤ e then some (mkRat (sb.1 * m.1 * 10 ^ e.toNat) m.2)
      else some (mkRat (sb.1 * m.1) (m.2 * 10 ^ (-e).toNat))
    | none => none
  | none, _ => none

/-- Comparison of two parsed numeric values: partial_cmp with unwrap_or
Equal in the source, which on values that are not NaN is this total
comparison. -/
def ratCmp (a b : Rat) : Ordering :=
  if a < b then .lt else if b < a then .gt else .eq

/-- Lexicographic strict order on character lists. -/
def charListLt : List Char → List Char → Bool
  | [], [] => false
  | _ :: _, [] => false
  | [], _ :: _ => true
  | c :: cs, d :: ds =>
    if c < d then true else if d < c then false else charListLt cs ds

/-- Rust String::cmp: lexicographic comparison.  Byte order on UTF-8 agrees
with the code point order used here. -/
def strCmp (a b : String) : Ordering :=
  if charListLt a.toList b.toList then .lt
  else if charListLt b.toList a.toList then .gt
  else .eq

/-- The comparator closure of Model::sort_current_column for numeric-typed
columns: values that parse as floats compare numerically honouring the
direction flag, a parseable value against an unparseable one is Less
(respectively Greater) regardless of the direction flag, and two unparseable
values fall back to direction-aware string comparison. -/
def sortCmp (ascending : Bool) (a b : String) : Ordering :=
  match parseFloat a, parseFloat b with
  | some av, some bv => if ascending then ratCmp av bv else ratCmp bv av
  | some _, none => .lt
  | none, some _ => .gt
  | none, none => if ascending then strCmp a b else strCmp b a

/-- The enumerate loop of Model::search_column, with the running mask index
made explicit. -/
def search_column_go (term : String) (column : Column) : List Nat → Nat → List Nat
  | [], _ => []
  | m :: mask, midx =>
    if strContains (column.data.getD m "") term
    then midx :: search_column_go term column mask (midx + 1)
    else search_column_go term column mask (midx + 1)

/-- Model::search_column: mask positions (view-row indices) whose display
string in the given column has the term as substring, in increasing order. -/
def search_column (term : String) (column : Column) (mask : List Nat) : List Nat :=
  search_column_go term column mask 0

/-- Model::calculate_column_width. -/
def calculate_column_width (column : Column) (max_column_width : Nat) : Nat :=
  let width := max column.name.length column.max_width + COLUMN_WIDTH_MARGIN
  match column.status with
  | .COLLAPSED => COLUMN_WIDTH_COLLAPSED_COLUMN
  | .NORMAL => min width max_column_width
  | .EXPANDED => width

/-- Model::get_visible_name: truncate a column name to the render width,
appending an ellipsis.  The source slices by bytes; names are treated
per character here. -/
def get_visible_name (name : String) (width : Nat) : String :=
  if width < 3 then ""
  else if name.length > width then (name.take (width - 3)) ++ "..."
  else name

/-- Model::get_collapsed_column. -/
def get_collapsed_column (nrows : Nat) : ColumnView :=
  { name := "...", width := 3, data := List.replicate nrows "⋮" }

/-- The greedy visible-column loop of Model::update_table_data: starting
from column index cidx with running width visible_width, take columns while
the running width plus the column render width plus one spacer stays within
table_width; the first overflowing column is appended with its width
truncated to the remaining budget when that budget is positive.  Returns the
visible column indices, the final running width, and the index and truncated
width of the partial column if there is one. -/
def collectVisible (table_width : Nat) :
    List Nat → Nat → Nat → List Nat × Nat × Option (Nat × Nat)
  | [], _, visible_width => ([], visible_width, none)
  | w :: rest, cidx, visible_width =>
    if visible_width + (w + 1) ≤ table_width then
      let r := collectVisible table_width rest (cidx + 1) (visible_width + (w + 1))
      (cidx :: r.1, r.2.1, r.2.2)
    else if visible_width < table_width then
      ([cidx], table_width, some (cidx, table_width - visible_width))
    else ([], visible_width, none)

/-- Insert an element into a sorted list, before the first element it
compares less-or-equal to. -/
def insertLe {α : Type} (le : α → α → Bool) (a : α) : List α → List α
  | [] => [a]
  | b :: bs => if le a b then a :: b :: bs else b :: insertLe le a bs

/-- Stable comparator sort, modelling Vec::sort_by (and sort_unstable on
lists whose elements are pairwise distinct under a total order): insertion
sort is stable, and any two stable sorts by the same total preorder produce
the same list. -/
def sortBy {α : Type} (le : α → α → Bool) : List α → List α
  | [] => []
  | x :: xs => insertLe le x (sortBy le xs)

/-- Key codes (crossterm, reduced to the variants the Inputter reacts to;
every other code behaves like the catch-all variant). -/
inductive KeyCode
  | enter | esc | backspace | left | right
  | char (c : Char)
  | other
deriving DecidableEq

/-- KeyCode::as_char. -/
def KeyCode.as_char : KeyCode → Option Char
  | .char c => some c
  | _ => none

/-- A raw key event: its code and whether the modifier set is NONE. -/
structure KeyEvent where
  code : KeyCode
  no_modifiers : Bool
deriving DecidableEq

/-- Single-line input state machine (inputter.rs, struct Inputter).  The
text is modelled as a character list; the source stores a String addressed
by the byte position of the character at curser_pos, which coincides with
the character position used here. -/
structure Inputter where
  current_input : List Char
  curser_pos : Nat
  input_width : Nat
  finished : Bool
  canceled : Bool
deriving DecidableEq

instance : Inhabited Inputter := ⟨⟨[], 0, 0, false, false⟩⟩

/-- Read-only snapshot of the Inputter (inputter.rs, struct InputResult). -/
structure InputResult where
  input : List Char
  finished : Bool
  canceled : Bool
  curser_pos : Nat
deriving DecidableEq

instance : Inhabited InputResult := ⟨⟨[], false, false, 0⟩⟩

/-- Inputter::get. -/
def Inputter.get (i : Inputter) : InputResult :=
  { canceled := i.canceled, finished := i.finished,
    input := i.current_input, curser_pos := i.curser_pos }

/-- Inputter::clear. -/
def Inputter.clear (i : Inputter) : Inputter :=
  { i with canceled := false, finished := false, current_input := [], curser_pos := 0 }

/-- Inputter::enter. -/
def Inputter.enter (i : Inputter) : Inputter := { i with finished := true }

/-- Inputter::escape. -/
def Inputter.escape (i : Inputter) : Inputter :=
  { i.clear with canceled := true, finished := true }

/-- Inputter::backspace: with a positive curser position, pop the LAST
character of the text (String::pop) and decrement the curser; otherwise do
nothing. -/
def Inputter.backspace (i : Inputter) : Inputter :=
  if i.curser_pos > 0 then
    { i with current_input := i.current_input.dropLast, curser_pos := i.curser_pos - 1 }
  else i

/-- Inputter::left. -/
def Inputter.left (i : Inputter) : Inputter :=
  { i with curser_pos := i.curser_pos - 1 }

/-- Inputter::right. -/
def Inputter.right (i : Inputter) : Inputter :=
  if i.curser_pos < i.current_input.length then { i with curser_pos := i.curser_pos + 1 }
  else i

/-- Inputter::key: insert a printable character at the byte position of the
character at curser_pos (or at the end when the curser is past the text). -/
def Inputter.key (i : Inputter) (code : KeyCode) : Inputter :=
  match code.as_char with
  | some chr =>
    { i with
      current_input := i.current_input.take i.curser_pos ++ chr :: i.current_input.drop i.curser_pos,
      curser_pos := i.curser_pos + 1 }
  | none => i

/-- Inputter::read: dispatch on the key code when the modifier set is NONE;
any other combination falls through to Inputter::key. -/
def Inputter.read (i : Inputter) (k : KeyEvent) : Inputter :=
  match k.code, k.no_modifiers with
  | .enter, true => i.enter
  | .esc, true => i.escape
  | .backspace, true => i.backspace
  | .left, true => i.left
  | .right, true => i.right
  | code, _ => i.key code

/-- Input messages (domain.rs, enum Message). -/
inductive Message
  | MoveUp | MovePageUp | MoveDown | MovePageDown | MoveLeft | MoveRight
  | MoveEnd | MoveToFirstColumn | MoveToLastColumn | MoveBeginning
  | ToggleColumnState | ToggleExpandColumnState | ToggleIndex
  | Resize (width height : Nat)
  | CopyCell | CopyRow | Help | EnterCommand | Search | SearchInColumn
  | Filter | Histogram | Enter | Exit | Quit | SearchNext | SearchPrev
  | RawKey (key : KeyEvent)
  | SortAscending | SortDescending
deriving DecidableEq

/-- Configuration (domain.rs, struct TVConfig). -/
structure TVConfig where
  event_poll_time : Nat
  max_column_width : Nat
  column_margin : Nat
  light_colors : Bool
deriving DecidableEq

/-- The engine state (model.rs, struct Model), without the fields that are
not modelled: file_info, the Instant timestamps, the clipboard handle and
the UIData render cache.  The boolean needs_refresh stands for the Instant
comparison last_data_change - last_update > ZERO at the top of
Model::update. -/
structure Model where
  config : TVConfig
  status : Status
  modus : Modus
  previous_modus : Modus
  data : List Column
  tables : List TableView
  record_view : RecordView
  histogram_view : HistogramView
  uilayout : UILayout
  input : Inputter
  cmd_mode : Option CMDMode
  last_input : InputResult
  active_cmdinput : Bool
  status_message : String
  needs_refresh : Bool
deriving DecidableEq

/-- The active Table View: the last element of the stack (tables.last()). -/
def Model.activeT (m : Model) : TableView := m.tables.getLastD TableView.empty

/-- Replace the active (last) Table View, as the source does through
tables.last_mut(). -/
def Model.setActive (m : Model) (t : TableView) : Model :=
  { m with tables := m.tables.dropLast ++ [t] }

/-- UILayout::from_model.  The source unwraps the last table of a non-empty
stack; an empty stack is modelled by an index width of 0. -/
def UILayout.from_model (m : Model) (ui_width ui_height : Nat) : UILayout :=
  let table := m.tables.getLastD TableView.empty
  let index_width := if table.show_index then table.index.width else 0
  UILayout.from_values index_width ui_width ui_height

/-- The render-width recomputation pass at the top of the refresh: every
column gets the width its status dictates. -/
def Model.widthsAfter (m : Model) : List Column :=
  m.data.map (fun c =>
    { c with render_width := calculate_column_width c m.config.max_column_width })

/-- The greedy visible-column collection of the refresh for the active view:
walk the columns from offset_column with the recomputed render widths. -/
def Model.collectFor (m : Model) (t0 : TableView) : List Nat × Nat × Option (Nat × Nat) :=
  collectVisible m.uilayout.table_width
    ((m.widthsAfter.drop t0.offset_column).map (fun c => c.render_width)) t0.offset_column 0

/-- Write the truncated width of the partial column back into the dataset,
as the loop of the refresh does through its mutable iterator. -/
def applyPartialWidth (data1 : List Column) : Option (Nat × Nat) → List Column
  | some pw =>
    match data1[pw.1]? with
    | some c => data1.set pw.1 { c with render_width := pw.2 }
    | none => data1
  | none => data1

/-- Materialise a ColumnView per visible column: Collapsed columns render a
run of placeholder glyphs, others slice the visible rows through the column
data.  A visible index outside the dataset is logged and skipped in the
source, hence the filterMap. -/
def makeColumnViews (data2 : List Column) (rows : List Nat) (rbegin rend : Nat)
    (vis : List Nat) : List ColumnView :=
  vis.filterMap (fun idx =>
    (data2[idx]?).map (fun c =>
      if c.status = ColumnStatus.COLLAPSED then get_collapsed_column (rend - rbegin)
      else
        { name := get_visible_name c.name c.render_width,
          width := c.render_width,
          data := ((rows.drop rbegin).take (rend - rbegin)).map
            (fun ridx => c.data.getD ridx "") }))

/-- The active view after a refresh: the view is resized to the layout
budget, the visible columns are collected greedily, the column curser is
clamped (len - 1 underflows in the source when no column is visible; Nat
subtraction yields 0 here), the visible ColumnViews are materialised and
the synthetic index column is rebuilt. -/
def Model.refreshedView (m : Model) (t0 : TableView) : TableView :=
  let t1 := { t0 with width := m.uilayout.table_width, heigh := m.uilayout.table_height }
  let rbegin := t1.offset_row
  let rend := min (rbegin + t1.heigh) t1.rows.length
  let cv := m.collectFor t0
  let data2 := applyPartialWidth m.widthsAfter cv.2.2
  let curser_column := min t1.curser_column (cv.1.length - 1)
  let views := makeColumnViews data2 t1.rows rbegin rend cv.1
  ({ t1 with
     visible_columns := cv.1,
     visible_width := cv.2.1,
     curser_column := curser_column,
     data := views }).build_index

/-- Model::update_table_data: the central Table View refresh.  On an empty
stack or dataset it does nothing; otherwise it replaces the active view by
the refreshed view and stores the recomputed render widths (including the
truncated width of a partial column) back into the dataset.  The UIData
publication step is not modelled. -/
def Model.update_table_data (m : Model) : Model :=
  if m.tables.isEmpty || m.data.isEmpty then m
  else
    let t0 := m.tables.getLastD TableView.empty
    { m with
      data := applyPartialWidth m.widthsAfter (m.collectFor t0).2.2,
      tables := m.tables.dropLast ++ [m.refreshedView t0] }

/-- The modelled fields of Model::init: an empty engine in Table mode with
the layout computed from the terminal size. -/
def Model.init (config : TVConfig) (ui_width ui_height : Nat) : Model :=
  { config := config, status := Status.READY, modus := Modus.TABLE,
    previous_modus := Modus.TABLE, data := [], tables := [],
    record_view := RecordView.empty, histogram_view := HistogramView.empty,
    uilayout := UILayout.from_values 0 ui_width ui_height,
    input := default, cmd_mode := none, last_input := default,
    active_cmdinput := false, status_message := "Started tv!",
    needs_refresh := false }

/-- The in-memory tail of Model::load_data_file: push a root Table View
named after the file whose rows mapping is the identity over the row count
of the first column (columns[0].data.len(), a panic on an empty column list
in the source), store the columns and refresh.  File decoding itself is
outside the core. -/
def Model.load_columns_into (m : Model) (columns : List Column) (fname : String) : Model :=
  let table := { TableView.empty with
    rows := List.range (columns.headD default).data.length,
    name := fname }
  ({ m with tables := m.tables ++ [table], data := columns }).update_table_data

/-- Model::quit. -/
def Model.quit (m : Model) : Model := { m with status := Status.QUITTING }

/-- Model::select_cell. -/
def Model.select_cell (m : Model) (row column : Nat) : Model :=
  match m.tables.getLast? with
  | none => m  -- the source unwraps the active table
  | some t =>
    let t1 :=
      if t.visible_columns.contains column then
        { t with curser_column :=
            (List.findIdx? (fun c => decide (c = column)) t.visible_columns).getD 0 }
      else
        { t with offset_column := column, curser_column := 0 }
    let t2 :=
      if row ≥ t1.offset_row ∧ row < t1.offset_row + t1.heigh then
        { t1 with curser_row := row - t1.offset_row }
      else
        { t1 with curser_row := 0, offset_row := row }
    (m.setActive t2).update_table_data

/-- Model::search_next with step in -1, 0, 1: move the match curser by step
with modular wraparound over the match count and select the match there. -/
def Model.search_next (m : Model) (step : Int) : Model :=
  match m.tables.getLast? with
  | none => m
  | some t =>
    let total_matches := t.search_results.length
    if total_matches > 0 then
      let idx :=
        if step ≥ 0 then
          let s := step.toNat
          if t.search_idx + s ≥ total_matches then 0 else t.search_idx + s
        else if (t.search_idx : Int) + step < 0 then total_matches - 1
        else ((t.search_idx : Int) + step).toNat
      let m1 := m.setActive { t with search_idx := idx }
      let nm := t.search_results.getD idx (0, 0)
      let m2 := m1.select_cell nm.1 nm.2
      { m2 with status_message :=
          "Search result " ++ toString (idx + 1) ++ "/" ++ toString total_matches }
    else m

/-- The lexicographic boolean order on (row, column) pairs used to sort
search results (sort_unstable on tuples). -/
def pairLe (a b : Nat × Nat) : Bool :=
  decide (a.1 < b.1) || (decide (a.1 = b.1) && decide (a.2 ≤ b.2))

/-- The match list of Model::search before sorting: either the selected
column only, or every dataset column scanned in column order (the rayon
par_iter collect preserves column order). -/
def Model.matching_rows (m : Model) (t : TableView) (term : String)
    (current_column_only : Bool) : List (Nat × Nat) :=
  if current_column_only then
    let current_col_idx := t.curser_column + t.offset_column
    (search_column term (m.data.getD current_col_idx default) t.rows).map
      (fun row_idx => (row_idx, current_col_idx))
  else
    (m.data.enum).flatMap (fun p =>
      (search_column term p.2 t.rows).map (fun row_idx => (row_idx, p.1)))

/-- Model::search: scan, sort the matches by (row, column), position the
match curser at the first match at or after the current absolute row (0 when
none qualifies) and re-apply it through a step of 0; a search with no match
only clears the result list. -/
def Model.search (m : Model) (term : String) (current_column_only : Bool) : Model :=
  match m.tables.getLast? with
  | none => m
  | some t =>
    let matching_rows := m.matching_rows t term current_column_only
    if matching_rows.isEmpty then
      let m1 := m.setActive { t with search_results := [] }
      { m1 with status_message := "Found no matches!" }
    else
      let results := sortBy pairLe matching_rows
      let curser_ridx := t.offset_row + t.curser_row
      let search_idx := (List.findIdx? (fun p => decide (p.1 ≥ curser_ridx)) results).getD 0
      let m1 := m.setActive { t with search_results := results, search_idx := search_idx }
      let m2 := m1.search_next 0
      { m2 with status_message := "Found " ++ toString results.length ++ " results" }

/-- Model::sort_current_column.  Vec::sort_by is a stable comparator sort;
it is modelled by mergeSort with (comparator not Greater) as the boolean
order. -/
def Model.sort_current_column (m : Model) (ascending : Bool) : Model :=
  match m.tables.getLast? with
  | none => m
  | some t =>
    let col := m.data.getD (t.curser_column + t.offset_column) default
    let is_numeric := is_numeric_type col.dtype
    let indexed_rows : List (Nat × String) :=
      t.rows.map (fun row_idx => (row_idx, col.data.getD row_idx ""))
    let sorted :=
      if is_numeric then
        sortBy (fun a b => (sortCmp ascending a.2 b.2).isLE) indexed_rows
      else if ascending then
        sortBy (fun a b => (strCmp a.2 b.2).isLE) indexed_rows
      else
        sortBy (fun a b => (strCmp b.2 a.2).isLE) indexed_rows
    (m.setActive { t with rows := sorted.map (fun p => p.1) }).update_table_data

/-- Model::filter_table: push a brand-new Table View whose rows are the
given view-row indices resolved through the active rows mapping. -/
def Model.filter_table (m : Model) (indices : List Nat) : Model :=
  match m.tables.getLast? with
  | none => m
  | some t =>
    let new_table := { TableView.empty with
      name := "F[" ++ t.name ++ "]",
      rows := indices.map (fun midx => t.rows.getD midx 0) }
    ({ m with tables := m.tables ++ [new_table] }).update_table_data

/-- Model::filter: match the term against the selected column over the
active rows mapping and push the filtered view. -/
def Model.filter (m : Model) (term : String) : Model :=
  match m.tables.getLast? with
  | none => m
  | some t =>
    let matched := search_column term
      (m.data.getD (t.offset_column + t.curser_column) default) t.rows
    m.filter_table matched

/-- Model::toggle_table_index. -/
def Model.toggle_table_index (m : Model) : Model :=
  match m.tables.getLast? with
  | none => m
  | some t =>
    let m1 := m.setActive { t with show_index := !t.show_index }
    let m2 := { m1 with uilayout := UILayout.from_model m1 m1.uilayout.width m1.uilayout.height }
    m2.update_table_data

/-- Model::toggle_column_status. -/
def Model.toggle_column_status (m : Model) (toggle_to_expand : Bool) : Model :=
  match m.tables.getLast? with
  | none => m
  | some t =>
    -- the source indexes data[visible_columns[curser_column]]; out of range
    -- indexing panics there and is a getD default / no-op set here
    let cidx := t.visible_columns.getD t.curser_column 0
    let cur := m.data.getD cidx default
    let new_status :=
      if toggle_to_expand then
        match cur.status with
        | ColumnStatus.COLLAPSED => ColumnStatus.EXPANDED
        | ColumnStatus.NORMAL => ColumnStatus.EXPANDED
        | ColumnStatus.EXPANDED => ColumnStatus.COLLAPSED
      else
        match cur.status with
        | ColumnStatus.COLLAPSED => ColumnStatus.NORMAL
        | ColumnStatus.NORMAL => ColumnStatus.COLLAPSED
        | ColumnStatus.EXPANDED => ColumnStatus.COLLAPSED
    ({ m with data := m.data.set cidx { cur with status := new_status } }).update_table_data

/-- Model::move_table_selection_beginning. -/
def Model.move_table_selection_beginning (m : Model) : Model :=
  match m.tables.getLast? with
  | none => m
  | some t =>
    (m.setActive { t with curser_row := 0, offset_row := 0 }).update_table_data

/-- Model::move_table_selection_end.  The subtractions underflow in the
source on an empty rows mapping; Nat subtraction truncates here. -/
def Model.move_table_selection_end (m : Model) : Model :=
  match m.tables.getLast? with
  | none => m
  | some t =>
    let t' :=
      if t.rows.length < m.uilayout.table_height then
        { t with offset_row := 0, curser_row := t.rows.length - 1 }
      else
        { t with offset_row := t.rows.length - m.uilayout.table_height,
                 curser_row := m.uilayout.table_height - 1 }
    (m.setActive t').update_table_data

/-- Model::move_table_selection_up. -/
def Model.move_table_selection_up (m : Model) (size : Nat) : Model :=
  match m.tables.getLast? with
  | none => m
  | some t =>
    let t' :=
      if t.curser_row > 0 then { t with curser_row := t.curser_row - size }
      else if t.offset_row > 0 then { t with offset_row := t.offset_row - size }
      else t
    (m.setActive t').update_table_data

/-- Model::move_table_selection_down.  The guard compares against
rows.len() - 1, a usize subtraction that underflows on an empty mapping in
the source; the first branch indexes table.data[0], which panics there when
no column is visible and reads a default here. -/
def Model.move_table_selection_down (m : Model) (size : Nat) : Model :=
  match m.tables.getLast? with
  | none => m
  | some t =>
    if t.curser_row + t.offset_row < t.rows.length - 1 then
      let t' :=
        if t.curser_row < m.uilayout.table_height - 1 then
          let cr := min (t.curser_row + size) ((t.data.headD ColumnView.empty).data.length - 1)
          { t with curser_row := cr }
        else
          let offset_row := min (t.offset_row + size) (t.rows.length - 1)
          { t with offset_row := offset_row,
                   curser_row := min (m.uilayout.table_height - 1)
                     (t.rows.length - offset_row - 1) }
      (m.setActive t').update_table_data
    else m

/-- Model::move_table_selection_left. -/
def Model.move_table_selection_left (m : Model) : Model :=
  match m.tables.getLast? with
  | none => m
  | some t =>
    let t' :=
      if t.curser_column > 0 then { t with curser_column := t.curser_column - 1 }
      else if t.offset_column > 0 then { t with offset_column := t.offset_column - 1 }
      else t
    (m.setActive t').update_table_data

/-- Model::move_table_selection_right. -/
def Model.move_table_selection_right (m : Model) : Model :=
  match m.tables.getLast? with
  | none => m
  | some t =>
    if t.curser_column + t.offset_column < m.data.length - 1 then
      let t' :=
        if t.curser_column < t.visible_columns.length - 1 then
          { t with curser_column := t.curser_column + 1 }
        else
          { t with offset_column := t.offset_column + 1 }
      (m.setActive t').update_table_data
    else if t.visible_width > t.width ∧ t.offset_column < m.data.length - 1 then
      (m.setActive { t with offset_column := t.offset_column + 1 }).update_table_data
    else m

/-- Model::update_record_data (without the UIData publication step). -/
def Model.update_record_data (m : Model) : Model :=
  match m.tables.getLast? with
  | none => m
  | some t =>
    let record := m.record_view
    let row_data := m.data.map (fun c => c.data.getD (t.rows.getD record.record_idx 0) "")
    let rbegin := record.curser_offset
    let rend := min (rbegin + record.height) row_data.length
    let header_view : ColumnView :=
      { name := "Headers", width := record.header_width,
        data := (record.header_data.drop rbegin).take (rend - rbegin) }
    let row_view : ColumnView :=
      { name := "Values", width := record.row_width,
        data := (row_data.drop rbegin).take (rend - rbegin) }
    { m with record_view := { record with
        row_data := row_data, header_view := header_view, row_view := row_view } }

/-- Model::build_record_view. -/
def Model.build_record_view (m : Model) (record_idx : Nat) : Model :=
  match m.tables.getLast? with
  | none => m
  | some t =>
    let header_data := m.data.map (fun c => c.name.take m.config.max_column_width)
    let header_width := (header_data.map String.length).foldr max 0
    let record := { m.record_view with
      header_data := header_data,
      curser_offset := 0, curser_row := 0, record_idx := record_idx,
      height := t.heigh, width := t.width,
      header_width := header_width,
      -- row_width = width - header_width underflows in the source when the
      -- headers are wider than the table
      row_width := t.width - header_width }
    ({ m with record_view := record }).update_record_data

/-- Model::move_record_selection_up. -/
def Model.move_record_selection_up (m : Model) (size : Nat) : Model :=
  let record := m.record_view
  let record' :=
    if record.curser_row > 0 then
      { record with curser_row := record.curser_row - size }
    else if record.curser_offset > 0 then
      { record with curser_offset := record.curser_offset - size }
    else record
  ({ m with record_view := record' }).update_record_data

/-- Model::move_record_selection_down. -/
def Model.move_record_selection_down (m : Model) (size : Nat) : Model :=
  let record := m.record_view
  if record.curser_row + record.curser_offset < record.row_data.length - 1 then
    let record' :=
      if record.curser_row < record.height - 1 then
        let cr := min (record.curser_row + size) (record.row_view.data.length - 1)
        { record with curser_row := cr }
      else
        let off := min (record.curser_offset + size) (record.row_data.length - 1)
        { record with
          curser_offset := off,
          curser_row := min (record.height - 1) (record.row_data.length - off) }
    ({ m with record_view := record' }).update_record_data
  else m

/-- Model::previous_record. -/
def Model.previous_record (m : Model) : Model :=
  let record := m.record_view
  let record' :=
    if record.record_idx > 0 then { record with record_idx := record.record_idx - 1 }
    else record
  ({ m with record_view := record' }).update_record_data

/-- Model::next_record. -/
def Model.next_record (m : Model) : Model :=
  match m.tables.getLast? with
  | none => m
  | some t =>
    let record := m.record_view
    let record' :=
      if record.record_idx < t.rows.length - 1 then
        { record with record_idx := record.record_idx + 1 }
      else record
    ({ m with record_view := record' }).update_record_data

/-- Occurrence counts of each distinct value in first-occurrence order;
models the HashMap accumulation of Model::calculate_column_histogram.  The
iteration order of the HashMap does not matter because the caller sorts the
pairs by a total order on distinct elements. -/
def countOccurrences (vals : List String) : List (String × Nat) :=
  vals.foldl (fun acc v =>
    match acc.lookup v with
    | some n => acc.map (fun p => if p.1 = v then (p.1, n + 1) else p)
    | none => acc ++ [(v, 1)]) []

/-- The boolean lexicographic order on (count, value) pairs used to sort
histogram entries ascending before reversing. -/
def countLe (a b : Nat × String) : Bool :=
  decide (a.1 < b.1) || (decide (a.1 = b.1) && (strCmp a.2 b.2).isLE)

/-- Model::calculate_column_histogram. -/
def Model.calculate_column_histogram (m : Model) (column_idx : Nat) : Model :=
  match m.tables.getLast? with
  | none => m
  | some t =>
    if (t.column_histograms.lookup column_idx).isSome then m
    else
      let column_data := (m.data.getD column_idx default).data
      let counts := countOccurrences (t.rows.map (fun ridx => column_data.getD ridx ""))
      let sorted := (sortBy countLe (counts.map (fun p => (p.2, p.1)))).reverse
      m.setActive { t with column_histograms :=
        (column_idx, (sorted.map (fun p => p.1), sorted.map (fun p => p.2)))
          :: t.column_histograms }

/-- Modelled from the spec: the count label of a histogram entry, rendered
as percentage% count.  The source formats c * 100.0 / nrecords with the
float format {:.0}; rounding to the nearest integer is modelled on
naturals. -/
def percentString (c nrecords : Nat) : String :=
  toString ((c * 100 * 2 + nrecords) / (2 * nrecords)) ++ "% " ++ toString c

/-- Model::update_histogram_view (without the UIData publication step).  The
source indexes count_data[0], a panic on an empty histogram; headD here. -/
def Model.update_histogram_view (m : Model) : Model :=
  let m1 := { m with uilayout := UILayout.from_model m m.uilayout.width m.uilayout.height }
  let hist := m1.histogram_view
  let rbegin := hist.curser_offset
  let rend := min (rbegin + hist.height) hist.value_data.length
  let count_width := (hist.count_data.headD "").length
  let count_view : ColumnView :=
    { name := "Counts", width := count_width,
      data := (hist.count_data.drop rbegin).take (rend - rbegin) }
  let value_width := hist.width - count_width
  let value_view : ColumnView :=
    { name := "Values", width := value_width,
      data := (hist.value_data.drop rbegin).take (rend - rbegin) }
  { m1 with histogram_view := { hist with
      count_width := count_width, count_view := count_view,
      value_width := value_width, value_view := value_view } }

/-- Model::build_histogram_view. -/
def Model.build_histogram_view (m : Model) : Model :=
  let m0 := { m with modus := Modus.HISTOGRAM }
  match m0.tables.getLast? with
  | none => m0
  | some t =>
    let current_column := t.offset_column + t.curser_column
    let m1 := m0.calculate_column_histogram current_column
    match m1.tables.getLast? with
    | none => m1
    | some t1 =>
      let m2 := m1.setActive { t1 with show_index := false }
      let t2 := m2.tables.getLastD TableView.empty
      let counts := (t2.column_histograms.lookup current_column).getD ([], [])
      let nrecords := t2.rows.length
      let hist := { m2.histogram_view with
        curser_offset := 0, curser_row := 0, column_idx := current_column,
        height := t2.heigh, width := t2.width,
        count_data := counts.1.map (fun c => percentString c nrecords),
        value_data := counts.2 }
      ({ m2 with histogram_view := hist }).update_histogram_view

/-- Model::show_help.  Only the mode bookkeeping is modelled; the popup
content lives in the UIData render cache. -/
def Model.show_help (m : Model) : Model :=
  { m with previous_modus := m.modus, modus := Modus.POPUP }

/-- Model::enter_cmd_mode. -/
def Model.enter_cmd_mode (m : Model) (mode : CMDMode) : Model :=
  { m with
    previous_modus := m.modus, modus := Modus.CMDINPUT, cmd_mode := some mode,
    active_cmdinput := true, input := m.input.clear, last_input := m.input.clear.get }

/-- Model::handle_cmd_input. -/
def Model.handle_cmd_input (m : Model) : Model :=
  let m1 := { m with active_cmdinput := false, modus := m.previous_modus,
                     previous_modus := Modus.CMDINPUT }
  let cmd_input := String.mk m1.last_input.input
  let m2 :=
    match m1.cmd_mode with
    | some CMDMode.SearchTable => m1.search cmd_input false
    | some CMDMode.FilterByColumn => m1.filter cmd_input
    | some CMDMode.SearchInColumn => m1.search cmd_input true
    | some CMDMode.Raw => m1
    | none => m1
  { m2 with cmd_mode := none }

/-- Model::raw_input. -/
def Model.raw_input (m : Model) (key : KeyEvent) : Model :=
  if m.active_cmdinput then
    let inp := m.input.read key
    let m1 := { m with input := inp, last_input := inp.get }
    if inp.get.finished then m1.handle_cmd_input else m1
  else m

/-- Model::enter. -/
def Model.enter (m : Model) : Model :=
  match m.modus with
  | Modus.TABLE =>
    match m.tables.getLast? with
    | none => m
    | some t =>
      let t' := { t with show_index := false }
      let record_idx := t'.offset_row + t'.curser_row
      let m1 := m.setActive t'
      -- disabling the index changes the layout; recalculate it
      let m2 := { m1 with uilayout := UILayout.from_model m1 m1.uilayout.width m1.uilayout.height }
      let m3 := m2.build_record_view record_idx
      { m3 with modus := Modus.RECORD, previous_modus := Modus.TABLE }
  | Modus.RECORD => m
  | Modus.HISTOGRAM =>
    match m.tables.getLast? with
    | none => m
    | some t =>
      let hist := m.histogram_view
      let term := hist.value_data.getD (hist.curser_offset + hist.curser_row) ""
      let matched := search_column term (m.data.getD hist.column_idx default) t.rows
      let m1 := m.filter_table matched
      { m1 with modus := Modus.TABLE, previous_modus := Modus.HISTOGRAM }
  | Modus.POPUP => m
  | Modus.CMDINPUT => m

/-- Model::exit. -/
def Model.exit (m : Model) : Model :=
  match m.modus with
  | Modus.TABLE =>
    if m.tables.length > 1 then ({ m with tables := m.tables.dropLast }).update_table_data
    else m
  | Modus.RECORD =>
    ({ m with previous_modus := Modus.RECORD, modus := Modus.TABLE }).update_table_data
  | Modus.POPUP =>
    { m with modus := m.previous_modus, previous_modus := Modus.POPUP }
  | Modus.CMDINPUT => m
  | Modus.HISTOGRAM =>
    ({ m with previous_modus := Modus.HISTOGRAM, modus := Modus.TABLE }).update_table_data

/-- Model::move_histogram_selection_up. -/
def Model.move_histogram_selection_up (m : Model) (size : Nat) : Model :=
  let hist := m.histogram_view
  let hist' :=
    if hist.curser_row > 0 then
      { hist with curser_row := hist.curser_row - size }
    else if hist.curser_offset > 0 then
      { hist with curser_offset := hist.curser_offset - size }
    else hist
  ({ m with histogram_view := hist' }).update_histogram_view

/-- Model::move_histogram_selection_down. -/
def Model.move_histogram_selection_down (m : Model) (size : Nat) : Model :=
  let hist := m.histogram_view
  if hist.curser_row + hist.curser_offset < hist.value_data.length - 1 then
    let hist' :=
      if hist.curser_row < hist.height - 1 then
        let cr := min (hist.curser_row + size) (hist.value_view.data.length - 1)
        { hist with curser_row := cr }
      else
        let off := min (hist.curser_offset + size) (hist.value_data.length - 1)
        { hist with
          curser_offset := off,
          curser_row := min (hist.height - 1) (hist.value_data.length - off) }
    ({ m with histogram_view := hist' }).update_histogram_view
  else m

/-- Model::ui_resize: recompute the layout from the new terminal size and
re-run the refresh of the active mode. -/
def Model.ui_resize (m : Model) (width height : Nat) : Model :=
  let m1 := { m with uilayout := UILayout.from_model m width height }
  let m2 := { m1 with input := { m1.input with input_width := m1.uilayout.statusline_width } }
  match m2.modus with
  | Modus.TABLE => m2.update_table_data
  | Modus.RECORD => m2.update_record_data
  | Modus.HISTOGRAM => m2.update_histogram_view
  | Modus.POPUP => m2
  | Modus.CMDINPUT => m2

/-- The per-mode message dispatch of Model::update.  The clipboard copy
handlers only emit to the external clipboard and leave the engine state
unchanged. -/
def Model.dispatch (m : Model) : Option Message → Model
  | none => m
  | some msg =>
    match m.modus with
    | Modus.TABLE =>
      match msg with
      | Message.Quit => m.quit
      | Message.MoveDown => m.move_table_selection_down 1
      | Message.MoveLeft => m.move_table_selection_left
      | Message.MoveRight => m.move_table_selection_right
      | Message.MoveUp => m.move_table_selection_up 1
      | Message.MovePageUp => m.move_table_selection_up (m.uilayout.table_height + 1)
      | Message.MovePageDown => m.move_table_selection_down (m.uilayout.table_height + 1)
      | Message.MoveBeginning => m.move_table_selection_beginning
      | Message.MoveEnd => m.move_table_selection_end
      | Message.ToggleColumnState => m.toggle_column_status false
      | Message.ToggleExpandColumnState => m.toggle_column_status true
      | Message.ToggleIndex => m.toggle_table_index
      | Message.Resize width height => m.ui_resize width height
      | Message.CopyCell => m
      | Message.CopyRow => m
      | Message.Help => m.show_help
      | Message.EnterCommand => m.enter_cmd_mode CMDMode.Raw
      | Message.Search => m.enter_cmd_mode CMDMode.SearchTable
      | Message.Filter => m.enter_cmd_mode CMDMode.FilterByColumn
      | Message.SearchInColumn => m.enter_cmd_mode CMDMode.SearchInColumn
      | Message.Enter => m.enter
      | Message.Exit => m.exit
      | Message.Histogram => m.build_histogram_view
      | Message.SearchNext => m.search_next 1
      | Message.SearchPrev => m.search_next (-1)
      | Message.SortAscending => m.sort_current_column true
      | Message.SortDescending => m.sort_current_column false
      | Message.MoveToFirstColumn =>
        match m.tables.getLast? with
        | none => m  -- the source unwraps the active table
        | some t => m.select_cell (t.curser_row + t.offset_row) 0
      | Message.MoveToLastColumn =>
        match m.tables.getLast? with
        | none => m
        | some t => m.select_cell (t.curser_row + t.offset_row) (m.data.length - 1)
      | _ => m
    | Modus.RECORD =>
      match msg with
      | Message.Quit => m.quit
      | Message.MoveDown => m.move_record_selection_down 1
      | Message.MoveLeft => m.previous_record
      | Message.MoveRight => m.next_record
      | Message.MoveUp => m.move_record_selection_up 1
      | Message.MovePageUp => m.move_record_selection_up 10
      | Message.MovePageDown => m.move_record_selection_down 10
      | Message.Resize width height => m.ui_resize width height
      | Message.CopyCell => m
      | Message.Help => m.show_help
      | Message.Enter => m.enter
      | Message.Exit => m.exit
      | _ => m
    | Modus.HISTOGRAM =>
      match msg with
      | Message.Quit => m.quit
      | Message.MoveDown => m.move_histogram_selection_down 1
      | Message.MoveUp => m.move_histogram_selection_up 1
      | Message.MovePageUp => m.move_histogram_selection_up 10
      | Message.MovePageDown => m.move_histogram_selection_down 10
      | Message.Resize width height => m.ui_resize width height
      | Message.Help => m.show_help
      | Message.Enter => m.enter
      | Message.Exit => m.exit
      | _ => m
    | Modus.POPUP =>
      match msg with
      | Message.Quit => m.quit
      | Message.Resize width height => m.ui_resize width height
      | Message.Exit => m.exit
      | _ => m
    | Modus.CMDINPUT =>
      match msg with
      | Message.RawKey key => m.raw_input key
      | _ => m

/-- Model::update: refresh the table data when the data changed since the
last update (the Instant comparison is modelled by needs_refresh), then
dispatch the message according to the current mode. -/
def Model.update (m0 : Model) (message : Option Message) : Model :=
  Model.dispatch (if m0.needs_refresh then m0.update_table_data else m0) message

/-- Configuration used by the concrete scenarios of this development. -/
def testConfig : TVConfig := ⟨100, 20, 1, false⟩

/-- A Normal-status column over the given display values, with the cached
maximum width the loader computes. -/
def mkCol (name : String) (vals : List String) (dt : DType) : Column :=
  { idx := 0, name := name, status := ColumnStatus.NORMAL,
    max_width := (vals.map String.length).foldr max 0,
    render_width := 0, data := vals, dtype := dt }

/-- A loaded model: two text columns of five rows on a 30 by 10 terminal. -/
def mAB : Model :=
  (Model.init testConfig 30 10).load_columns_into
    [mkCol "a" ["x1", "x2", "x3", "x4", "x5"] DType.other,
     mkCol "b" ["y1", "y2", "y3", "y4", "y5"] DType.other] "test.csv"

/-- A loaded model with one numeric (Int64) column holding 10, abc and 2. -/
def mNum : Model :=
  (Model.init testConfig 30 10).load_columns_into
    [mkCol "n" ["10", "abc", "2"] DType.int64] "n.csv"

/-- A loaded model whose first column consumes the width budget of its 5 by
10 terminal exactly: the table width is 4 and the first column takes its
render width 3 plus one spacer. -/
def mEx2 : Model :=
  (Model.init testConfig 5 10).load_columns_into
    [mkCol "ab" ["x1", "x2"] DType.other, mkCol "cd" ["y1", "y2"] DType.other] "t.csv"

/-- A loaded model with ten rows on a 20 by 8 terminal (table height 6). -/
def mBig : Model :=
  (Model.init testConfig 20 8).load_columns_into
    [mkCol "a" ["1", "2", "3", "4", "5", "6", "7", "8", "9", "10"] DType.other] "t.csv"

/-- mBig with the cursor moved to absolute row 3, then resized to height 4
(table height 2). -/
def mShrunk : Model := (mBig.select_cell 3 0).ui_resize 20 4

lemma Model.update_table_data_modus (m : Model) :
    m.update_table_data.modus = m.modus := by
  unfold Model.update_table_data; split <;> rfl

lemma Model.update_table_data_status (m : Model) :
    m.update_table_data.status = m.status := by
  unfold Model.update_table_data; split <;> rfl

lemma Model.update_table_data_status_message (m : Model) :
    m.update_table_data.status_message = m.status_message := by
  unfold Model.update_table_data; split <;> rfl

lemma Model.update_table_data_uilayout (m : Model) :
    m.update_table_data.uilayout = m.uilayout := by
  unfold Model.update_table_data; split <;> rfl

lemma Model.update_table_data_eq (m : Model) (ht : m.tables ≠ []) (hd : m.data ≠ []) :
    m.update_table_data =
      { m with
        data := applyPartialWidth m.widthsAfter (m.collectFor m.activeT).2.2,
        tables := m.tables.dropLast ++ [m.refreshedView m.activeT] } := by
  unfold Model.update_table_data
  have hc : (m.tables.isEmpty || m.data.isEmpty) = false := by
    rw [List.isEmpty_eq_false.mpr ht, List.isEmpty_eq_false.mpr hd]; rfl
  rw [if_neg (by simp [hc])]
  rfl

lemma Model.update_table_data_activeT (m : Model) (ht : m.tables ≠ []) (hd : m.data ≠ []) :
    m.update_table_data.activeT = m.refreshedView m.activeT := by
  rw [Model.update_table_data_eq m ht hd]
  show (m.tables.dropLast ++ [m.refreshedView m.activeT]).getLastD TableView.empty = _
  exact List.getLastD_concat _ _ _

lemma Model.update_table_data_tables_ne (m : Model) (ht : m.tables ≠ []) (hd : m.data ≠ []) :
    m.update_table_data.tables ≠ [] := by
  rw [Model.update_table_data_eq m ht hd]
  simp

lemma Model.update_table_data_tables_length (m : Model) (ht : m.tables ≠ []) (hd : m.data ≠ []) :
    m.update_table_data.tables.length = m.tables.length := by
  rw [Model.update_table_data_eq m ht hd]
  show (m.tables.dropLast ++ [m.refreshedView m.activeT]).length = _
  rw [List.length_append, List.length_dropLast]
  have : 0 < m.tables.length := List.length_pos.mpr ht
  simp; omega

lemma Model.update_table_data_tables_dropLast (m : Model) (ht : m.tables ≠ []) (hd : m.data ≠ []) :
    m.update_table_data.tables.dropLast = m.tables.dropLast := by
  rw [Model.update_table_data_eq m ht hd]
  show (m.tables.dropLast ++ [m.refreshedView m.activeT]).dropLast = _
  exact List.dropLast_concat

lemma applyPartialWidth_length (d : List Column) (o : Option (Nat × Nat)) :
    (applyPartialWidth d o).length = d.length := by
  cases o with
  | none => rfl
  | some pw =>
    unfold applyPartialWidth
    cases h : d[pw.1]? <;> simp [h]

lemma Model.widthsAfter_length (m : Model) : m.widthsAfter.length = m.data.length :=
  List.length_map _ _

lemma Model.update_table_data_data_length (m : Model) :
    m.update_table_data.data.length = m.data.length := by
  unfold Model.update_table_data
  split
  · rfl
  · show (applyPartialWidth _ _).length = _
    rw [applyPartialWidth_length, Model.widthsAfter_length]

lemma Model.refreshedView_rows (m : Model) (t0 : TableView) :
    (m.refreshedView t0).rows = t0.rows := rfl

lemma Model.refreshedView_offset_row (m : Model) (t0 : TableView) :
    (m.refreshedView t0).offset_row = t0.offset_row := rfl

lemma Model.refreshedView_curser_row (m : Model) (t0 : TableView) :
    (m.refreshedView t0).curser_row = t0.curser_row := rfl

lemma Model.refreshedView_offset_column (m : Model) (t0 : TableView) :
    (m.refreshedView t0).offset_column = t0.offset_column := rfl

lemma Model.refreshedView_search_results (m : Model) (t0 : TableView) :
    (m.refreshedView t0).search_results = t0.search_results := rfl

lemma Model.refreshedView_search_idx (m : Model) (t0 : TableView) :
    (m.refreshedView t0).search_idx = t0.search_idx := rfl

lemma Model.refreshedView_name (m : Model) (t0 : TableView) :
    (m.refreshedView t0).name = t0.name := rfl

lemma Model.refreshedView_heigh (m : Model) (t0 : TableView) :
    (m.refreshedView t0).heigh = m.uilayout.table_height := rfl

lemma Model.refreshedView_visible_columns (m : Model) (t0 : TableView) :
    (m.refreshedView t0).visible_columns = (m.collectFor t0).1 := rfl

lemma Model.refreshedView_curser_column (m : Model) (t0 : TableView) :
    (m.refreshedView t0).curser_column =
      min t0.curser_column ((m.collectFor t0).1.length - 1) := rfl

lemma Model.refreshedView_data (m : Model) (t0 : TableView) :
    (m.refreshedView t0).data =
      makeColumnViews (applyPartialWidth m.widthsAfter (m.collectFor t0).2.2) t0.rows
        t0.offset_row (min (t0.offset_row + m.uilayout.table_height) t0.rows.length)
        (m.collectFor t0).1 := rfl

lemma Model.tables_getLast?_eq (m : Model) (ht : m.tables ≠ []) :
    m.tables.getLast? = some m.activeT := by
  unfold Model.activeT
  rw [List.getLastD_eq_getLast?]
  cases hx : m.tables.getLast? with
  | none => exact absurd (List.getLast?_eq_none_iff.mp hx) ht
  | some a => rfl

lemma Model.setActive_activeT (m : Model) (t : TableView) :
    (m.setActive t).activeT = t := by
  show (m.tables.dropLast ++ [t]).getLastD TableView.empty = t
  exact List.getLastD_concat _ _ _

lemma Model.setActive_tables_ne (m : Model) (t : TableView) :
    (m.setActive t).tables ≠ [] := by
  show m.tables.dropLast ++ [t] ≠ []
  simp

/-- C7, part of the analysis: the Quit arms of the dispatch in the four
modes other than CommandInput all call Model::quit. -/
lemma Model.dispatch_quit (m : Model) (h : m.modus ≠ Modus.CMDINPUT) :
    (m.dispatch (some Message.Quit)).status = Status.QUITTING := by
  unfold Model.dispatch
  cases hm : m.modus
  case CMDINPUT => exact absurd hm h
  all_goals rfl

/-- C7 counterexample: from a freshly loaded model, entering command-input
mode (the colon key) and then processing a Quit Message leaves the engine
status unchanged at READY: in CMDINPUT mode the dispatch only processes
RawKey messages, so Quit does not reach Model::quit. -/
theorem c7_counterexample :
    ((mAB.update (some Message.EnterCommand)).update (some Message.Quit)).status =
        Status.READY ∧
    ¬ ((mAB.update (some Message.EnterCommand)).update (some Message.Quit)).status =
        Status.QUITTING := by
  constructor
  · decide
  · decide

/-- C7 amended: in every mode other than CommandInput (Table, Record,
Histogram and Popup), processing a Quit Message sets the engine status to
QUITTING; in CommandInput mode only RawKey messages are processed and Quit
leaves the status unchanged. -/
theorem c7_amended (m : Model) (h : m.modus ≠ Modus.CMDINPUT) :
    (m.update (some Message.Quit)).status = Status.QUITTING := by
  unfold Model.update
  apply Model.dispatch_quit
  split
  · rw [Model.update_table_data_modus]; exact h
  · exact h

/-- C7 amended, witness: a freshly loaded model is in Table mode and Quit
terminates it. -/
theorem c7_amended_witness : (mAB.update (some Message.Quit)).status = Status.QUITTING :=
  c7_amended mAB (by decide)

/-- C10: a backspace keystroke with a positive curser position removes the
LAST character of the text (String::pop), not the character before the
curser, and decrements the curser; with curser position 0 it changes
nothing; an ordinary character key inserts at the curser position.  The
final conjunct shows the mid-text behaviour concretely: with text abc and
the curser after the first character, backspace yields ab (removing the
character before the curser would have yielded bc). -/
theorem c10_backspace_semantics (i : Inputter) :
    (i.curser_pos > 0 →
      i.backspace.current_input = i.current_input.dropLast ∧
      i.backspace.curser_pos = i.curser_pos - 1) ∧
    (i.curser_pos = 0 → i.backspace = i) ∧
    (∀ c : Char,
      (i.key (KeyCode.char c)).current_input =
        i.current_input.take i.curser_pos ++ c :: i.current_input.drop i.curser_pos ∧
      (i.key (KeyCode.char c)).curser_pos = i.curser_pos + 1) ∧
    (Inputter.backspace ⟨['a', 'b', 'c'], 1, 0, false, false⟩).current_input = ['a', 'b'] := by
  refine ⟨fun h => ?_, fun h => ?_, fun c => ⟨rfl, rfl⟩, by decide⟩
  · unfold Inputter.backspace
    rw [if_pos h]
    exact ⟨rfl, rfl⟩
  · unfold Inputter.backspace
    rw [if_neg (by omega)]

/-- C10 witness: backspace on the two-character text xy with the curser at
the end removes y and moves the curser to 1. -/
theorem c10_witness :
    (Inputter.backspace ⟨['x', 'y'], 2, 0, false, false⟩).current_input = ['x'] ∧
    (Inputter.backspace ⟨['x', 'y'], 2, 0, false, false⟩).curser_pos = 1 :=
  (c10_backspace_semantics ⟨['x', 'y'], 2, 0, false, false⟩).1 (by decide)

/-- C6 counterexample: for the view over the single row 0 (window height 5)
the index data is the single string 1 and its width is 1, not the width of
the largest visible index string raised to the minimum 3 that the claim
states: the source takes the length of the LAST index string and uses 3
only for an empty slice. -/
theorem c6_counterexample :
    (TableView.build_index { TableView.empty with rows := [0], heigh := 5 }).index.width = 1 ∧
    (TableView.build_index { TableView.empty with rows := [0], heigh := 5 }).index.width ≠
      max 3 ((((TableView.build_index
        { TableView.empty with rows := [0], heigh := 5 }).index.data).map
          String.length).foldr max 0) := by
  constructor
  · decide
  · decide

/-- C6 amended: after a refresh the synthetic index data is exactly the row
slice rows[offset_row .. min(offset_row + height, M)] mapped to the row
index plus 1, stringified; the width is the length of the LAST visible
index string, or 3 when the slice is empty (not a general minimum of 3 over
the largest string). -/
theorem c6_amended (t : TableView) :
    (t.build_index).index.data =
      ((t.rows.drop t.offset_row).take
        (min (t.offset_row + t.heigh) t.rows.length - t.offset_row)).map
        (fun idx => toString (idx + 1)) ∧
    (t.build_index).index.width =
      match ((t.rows.drop t.offset_row).take
          (min (t.offset_row + t.heigh) t.rows.length - t.offset_row)).getLast? with
      | some idx => (toString (idx + 1)).length
      | none => 3 := by
  refine ⟨rfl, ?_⟩
  show ((((t.rows.drop t.offset_row).take
      (min (t.offset_row + t.heigh) t.rows.length - t.offset_row)).map
        (fun idx => toString (idx + 1))).getLast?.map String.length).getD 3 = _
  rw [List.getLast?_map]
  cases h : ((t.rows.drop t.offset_row).take
      (min (t.offset_row + t.heigh) t.rows.length - t.offset_row)).getLast? <;> simp [h]

/-- The running width accumulated by the visible-column loop over a block
of columns, starting from a given width: each column contributes its render
width plus one spacer. -/
def accWidth (start : Nat) (ws : List Nat) : Nat :=
  ws.foldl (fun a w => a + (w + 1)) start

lemma accWidth_cons (start w : Nat) (ws : List Nat) :
    accWidth start (w :: ws) = accWidth (start + (w + 1)) ws := rfl

lemma accWidth_nil (start : Nat) : accWidth start [] = start := rfl

lemma start_le_accWidth : ∀ (ws : List Nat) (start : Nat), start ≤ accWidth start ws
  | [], _ => Nat.le_refl _
  | w :: ws, start =>
    Nat.le_trans (Nat.le_add_right start (w + 1)) (start_le_accWidth ws (start + (w + 1)))

/-- The behaviour of the greedy visible-column loop on a width list that
splits into a block of columns that all fit followed by a first overflowing
column: the fitting block is taken whole, and the overflowing column is
appended, with its width truncated to the remaining budget, exactly when
the accumulated width is still strictly below the table width. -/
lemma collectVisible_spec (tw : Nat) :
    ∀ (fits : List Nat) (w : Nat) (rest : List Nat) (cidx vw : Nat),
      accWidth vw fits ≤ tw → tw < accWidth vw fits + (w + 1) →
      (collectVisible tw (fits ++ w :: rest) cidx vw).1 =
        List.range' cidx fits.length ++
          (if accWidth vw fits < tw then [cidx + fits.length] else []) ∧
      (collectVisible tw (fits ++ w :: rest) cidx vw).2.2 =
        (if accWidth vw fits < tw
          then some (cidx + fits.length, tw - accWidth vw fits) else none)
  | [], w, rest, cidx, vw => by
    intro hfits hover
    rw [accWidth_nil] at hfits hover ⊢
    rw [List.nil_append]
    unfold collectVisible
    rw [if_neg (by omega)]
    by_cases hlt : vw < tw
    · rw [if_pos hlt, if_pos hlt, if_pos hlt]
      simp
    · rw [if_neg hlt, if_neg hlt, if_neg hlt]
      simp
  | f :: fs, w, rest, cidx, vw => by
    intro hfits hover
    rw [accWidth_cons] at hfits hover
    have hstep : vw + (f + 1) ≤ tw :=
      Nat.le_trans (start_le_accWidth fs (vw + (f + 1))) hfits
    have ih := collectVisible_spec tw fs w rest (cidx + 1) (vw + (f + 1)) hfits hover
    rw [List.cons_append]
    unfold collectVisible
    rw [if_pos hstep]
    refine ⟨?_, ?_⟩
    · show cidx :: (collectVisible tw (fs ++ w :: rest) (cidx + 1) (vw + (f + 1))).1 = _
      rw [ih.1, List.length_cons, List.range'_succ]
      rw [List.cons_append]
      have harith : cidx + 1 + fs.length = cidx + (fs.length + 1) := by omega
      rw [harith, accWidth_cons]
    · show (collectVisible tw (fs ++ w :: rest) (cidx + 1) (vw + (f + 1))).2.2 = _
      rw [ih.2]
      have harith : cidx + 1 + fs.length = cidx + (fs.length + 1) := by omega
      rw [harith, accWidth_cons, List.length_cons]

/-- C5 counterexample: in mEx2 the table width is 4 and the first column
takes its render width 3 plus one spacer, consuming the budget exactly; a
second column exists past it (the dataset has two columns and the offset is
0), yet it is NOT appended to visible_columns, because the source only
appends a partial column while the running width is strictly below the
table width. -/
theorem c5_counterexample :
    mEx2.uilayout.table_width = 4 ∧
    mEx2.data.length = 2 ∧
    mEx2.activeT.offset_column = 0 ∧
    mEx2.activeT.visible_columns = [0] ∧
    ¬ (1 ∈ mEx2.activeT.visible_columns) := by
  refine ⟨by decide, by decide, by decide, by decide, by decide⟩

/-- C5 amended: starting at offset_column, columns are accumulated while
running_width + render_width + 1 stays within table_width; when a first
overflowing column follows the fitting block it is appended once with its
render width truncated to the remaining budget table_width - running_width
if and only if the running width is still strictly below table_width; when
the fitting block consumes the budget exactly, the overflowing column is
not appended. -/
theorem c5_amended (table_width : Nat) (fits : List Nat) (w : Nat) (rest : List Nat)
    (offset_column : Nat)
    (hfits : accWidth 0 fits ≤ table_width)
    (hover : table_width < accWidth 0 fits + (w + 1)) :
    (collectVisible table_width (fits ++ w :: rest) offset_column 0).1 =
      List.range' offset_column fits.length ++
        (if accWidth 0 fits < table_width then [offset_column + fits.length] else []) ∧
    (collectVisible table_width (fits ++ w :: rest) offset_column 0).2.2 =
      (if accWidth 0 fits < table_width
        then some (offset_column + fits.length, table_width - accWidth 0 fits) else none) :=
  collectVisible_spec table_width fits w rest offset_column 0 hfits hover

/-- C5 amended, witness: with budget 4, a fitting column of width 2 (running
width 3) and an overflowing column of width 9, the overflowing column is
appended with truncated width 1. -/
theorem c5_amended_witness :
    (collectVisible 4 [2, 9] 0 0).1 = [0, 1] ∧
    (collectVisible 4 [2, 9] 0 0).2.2 = some (1, 1) := by
  have h := c5_amended 4 [2] 9 [] 0 (by decide) (by decide)
  exact ⟨by simpa using h.1, by simpa using h.2⟩

/-- C3: the numeric sort comparator orders a parseable value before an
unparseable one regardless of the direction flag; two parseable values
compare numerically honouring the flag; two unparseable values compare as
strings honouring the flag; and sorting the numeric column 10, abc, 2
ascending yields 2, 10, abc. -/
theorem c3_numeric_sort (ascending : Bool) (a b : String) :
    (∀ x, parseFloat a = some x → parseFloat b = none →
      sortCmp ascending a b = Ordering.lt ∧ sortCmp ascending b a = Ordering.gt) ∧
    (∀ x y, parseFloat a = some x → parseFloat b = some y →
      sortCmp ascending a b = (if ascending then ratCmp x y else ratCmp y x)) ∧
    (parseFloat a = none → parseFloat b = none →
      sortCmp ascending a b = (if ascending then strCmp a b else strCmp b a)) ∧
    ((mNum.sort_current_column true).activeT.rows.map
      (fun r => (mNum.data.getD 0 default).data.getD r "") = ["2", "10", "abc"]) := by
  refine ⟨fun x hx hb => ?_, fun x y hx hy => ?_, fun ha hb => ?_, by decide⟩
  · constructor
    · unfold sortCmp; rw [hx, hb]
    · unfold sortCmp; rw [hx, hb]
  · unfold sortCmp; rw [hx, hy]
  · unfold sortCmp; rw [ha, hb]

/-- C3 witness: 10 parses, abc does not; the comparator puts 10 first in
both directions. -/
theorem c3_witness :
    (sortCmp true "10" "abc" = Ordering.lt ∧ sortCmp true "abc" "10" = Ordering.gt) ∧
    (sortCmp false "10" "abc" = Ordering.lt ∧ sortCmp false "abc" "10" = Ordering.gt) :=
  ⟨(c3_numeric_sort true "10" "abc").1 10 (by decide) (by decide),
   (c3_numeric_sort false "10" "abc").1 10 (by decide) (by decide)⟩

lemma search_column_go_succ (term : String) (col : Column) :
    ∀ (mask : List Nat) (n : Nat),
      search_column_go term col mask (n + 1) =
        (search_column_go term col mask n).map (fun i => i + 1)
  | [], _ => rfl
  | m :: mask, n => by
    unfold search_column_go
    by_cases h : strContains (col.data.getD m "") term
    · rw [if_pos h, if_pos h, List.map_cons, ← search_column_go_succ term col mask (n + 1)]
    · rw [if_neg h, if_neg h, ← search_column_go_succ term col mask (n + 1)]

lemma search_column_cons (term : String) (col : Column) (r : Nat) (R : List Nat) :
    search_column term col (r :: R) =
      (if strContains (col.data.getD r "") term then [0] else []) ++
        (search_column term col R).map (fun i => i + 1) := by
  show (if strContains (col.data.getD r "") term
        then 0 :: search_column_go term col R (0 + 1)
        else search_column_go term col R (0 + 1)) =
      (if strContains (col.data.getD r "") term then [0] else []) ++
        (search_column_go term col R 0).map (fun i => i + 1)
  rw [search_column_go_succ term col R 0]
  by_cases h : strContains (col.data.getD r "") term
  · rw [if_pos h, if_pos h]
    rfl
  · rw [if_neg h, if_neg h]
    rfl

lemma search_column_map_getD (term : String) (col : Column) :
    ∀ R : List Nat,
      (search_column term col R).map (fun i => R.getD i 0) =
        R.filter (fun r => strContains (col.data.getD r "") term)
  | [] => rfl
  | r :: R => by
    rw [search_column_cons, List.map_append, List.map_map, List.filter_cons]
    have hcomp : ((fun i => (r :: R).getD i 0) ∘ (fun i => i + 1)) =
        (fun i => R.getD i 0) := by
      funext i
      simp [Function.comp, List.getD_cons_succ]
    rw [hcomp, search_column_map_getD term col R]
    by_cases h : strContains (col.data.getD r "") term
    · rw [if_pos h, if_pos h]
      simp
    · rw [if_neg h, if_neg h]
      simp

lemma Model.filter_eq (m : Model) (ht : m.tables ≠ []) (term : String) :
    m.filter term =
      m.filter_table (search_column term
        (m.data.getD (m.activeT.offset_column + m.activeT.curser_column) default)
        m.activeT.rows) := by
  unfold Model.filter
  rw [Model.tables_getLast?_eq m ht]

lemma Model.filter_table_eq (m : Model) (ht : m.tables ≠ []) (indices : List Nat) :
    m.filter_table indices =
      ({ m with tables := m.tables ++ [{ TableView.empty with
          name := "F[" ++ m.activeT.name ++ "]",
          rows := indices.map (fun midx => m.activeT.rows.getD midx 0) }] }).update_table_data := by
  unfold Model.filter_table
  rw [Model.tables_getLast?_eq m ht]

lemma Model.activeT_of_getLast? (m : Model) (t : TableView)
    (ht : m.tables.getLast? = some t) : m.activeT = t := by
  unfold Model.activeT
  rw [List.getLastD_eq_getLast?, ht]
  rfl

lemma tables_ne_of_getLast? (m : Model) (t : TableView)
    (ht : m.tables.getLast? = some t) : m.tables ≠ [] := by
  intro h
  rw [h] at ht
  cases ht

/-- The model produced by pushing the filter result onto the stack, before
the refresh; shared by the proofs about Model::filter. -/
def Model.pushedFilter (m : Model) (indices : List Nat) : Model :=
  { m with tables := m.tables ++ [{ TableView.empty with
      name := "F[" ++ m.activeT.name ++ "]",
      rows := indices.map (fun midx => m.activeT.rows.getD midx 0) }] }

lemma Model.filter_table_eq' (m : Model) (ht : m.tables ≠ []) (indices : List Nat) :
    m.filter_table indices = (m.pushedFilter indices).update_table_data :=
  Model.filter_table_eq m ht indices

lemma Model.pushedFilter_tables_ne (m : Model) (indices : List Nat) :
    (m.pushedFilter indices).tables ≠ [] := by
  show m.tables ++ [_] ≠ []
  simp

lemma Model.pushedFilter_activeT (m : Model) (indices : List Nat) :
    (m.pushedFilter indices).activeT =
      { TableView.empty with
        name := "F[" ++ m.activeT.name ++ "]",
        rows := indices.map (fun midx => m.activeT.rows.getD midx 0) } := by
  show (m.tables ++ [_]).getLastD TableView.empty = _
  exact List.getLastD_concat _ _ _

lemma Model.exit_table (m1 : Model) (hm : m1.modus = Modus.TABLE)
    (hlen : 1 < m1.tables.length) :
    m1.exit = ({ m1 with tables := m1.tables.dropLast } : Model).update_table_data := by
  unfold Model.exit
  cases hmm : m1.modus
  case TABLE => rw [if_pos hlen]
  all_goals rw [hmm] at hm
  all_goals cases hm

/-- C9: a filter whose predicate matches no row still pushes a new child
Table View whose rows mapping is empty; the child becomes the active view,
the stack grows by one, and neither the engine status nor the status
message reports an error. -/
theorem c9_empty_filter (m : Model) (t : TableView) (ht : m.tables.getLast? = some t)
    (hd : m.data ≠ []) (term : String)
    (hnone : search_column term
      (m.data.getD (t.offset_column + t.curser_column) default) t.rows = []) :
    (m.filter term).tables.length = m.tables.length + 1 ∧
    (m.filter term).activeT.rows = [] ∧
    (m.filter term).activeT.name = "F[" ++ t.name ++ "]" ∧
    (m.filter term).status = m.status ∧
    (m.filter term).status_message = m.status_message := by
  have htne : m.tables ≠ [] := tables_ne_of_getLast? m t ht
  have hact : m.activeT = t := Model.activeT_of_getLast? m t ht
  have hfe : m.filter term = (m.pushedFilter []).update_table_data := by
    rw [Model.filter_eq m htne term, hact, hnone]
    exact Model.filter_table_eq' m htne []
  have hpne : (m.pushedFilter []).tables ≠ [] := Model.pushedFilter_tables_ne m []
  have hpd : (m.pushedFilter []).data ≠ [] := hd
  have hpact := Model.pushedFilter_activeT m []
  refine ⟨?_, ?_, ?_, ?_, ?_⟩
  · rw [hfe, Model.update_table_data_tables_length _ hpne hpd]
    show (m.tables ++ [_]).length = _
    rw [List.length_append]
    rfl
  · rw [hfe, Model.update_table_data_activeT _ hpne hpd, Model.refreshedView_rows, hpact]
    rfl
  · rw [hfe, Model.update_table_data_activeT _ hpne hpd, Model.refreshedView_name, hpact, hact]
  · rw [hfe, Model.update_table_data_status]
    rfl
  · rw [hfe, Model.update_table_data_status_message]
    rfl

/-- C9 witness: filtering the two-column five-row model for a term that
occurs nowhere pushes an empty active child view without an error. -/
theorem c9_witness :
    (mAB.filter "zzz").tables.length = mAB.tables.length + 1 ∧
    (mAB.filter "zzz").activeT.rows = [] ∧
    (mAB.filter "zzz").activeT.name = "F[" ++ mAB.activeT.name ++ "]" ∧
    (mAB.filter "zzz").status = mAB.status ∧
    (mAB.filter "zzz").status_message = mAB.status_message := by
  have h := c9_empty_filter mAB mAB.activeT
    (Model.tables_getLast?_eq mAB (by decide)) (by decide) "zzz" (by decide)
  exact ⟨h.1, h.2.1, h.2.2.1, h.2.2.2.1, h.2.2.2.2⟩

/-- C2: filtering the active view with rows mapping R pushes a child whose
rows are exactly the elements of R whose cell in the selected column
matches, in order (the view-row match indices resolved through R); every
other view on the stack is unchanged byte for byte; and exiting the child
pops it, leaving the stack at its old length with the parent active again
and its rows mapping R and name unchanged. -/
theorem c2_filter_composition (m : Model) (t : TableView) (ht : m.tables.getLast? = some t)
    (hd : m.data ≠ []) (hmodus : m.modus = Modus.TABLE) (term : String) :
    (m.filter term).tables.dropLast = m.tables ∧
    (m.filter term).activeT.rows =
      t.rows.filter (fun r =>
        strContains ((m.data.getD (t.offset_column + t.curser_column) default).data.getD r "")
          term) ∧
    (m.filter term).activeT.name = "F[" ++ t.name ++ "]" ∧
    (m.filter term).exit.tables.length = m.tables.length ∧
    (m.filter term).exit.activeT.rows = t.rows ∧
    (m.filter term).exit.activeT.name = t.name := by
  have htne : m.tables ≠ [] := tables_ne_of_getLast? m t ht
  have hact : m.activeT = t := Model.activeT_of_getLast? m t ht
  set matched := search_column term
    (m.data.getD (t.offset_column + t.curser_column) default) t.rows with hmatched
  have hfe : m.filter term = (m.pushedFilter matched).update_table_data := by
    rw [Model.filter_eq m htne term, hact]
    exact Model.filter_table_eq' m htne matched
  have hpne : (m.pushedFilter matched).tables ≠ [] := Model.pushedFilter_tables_ne m matched
  have hpd : (m.pushedFilter matched).data ≠ [] := hd
  have hpact := Model.pushedFilter_activeT m matched
  have hdrop : (m.filter term).tables.dropLast = m.tables := by
    rw [hfe, Model.update_table_data_tables_dropLast _ hpne hpd]
    show (m.tables ++ [_]).dropLast = _
    exact List.dropLast_concat
  have hlen : (m.filter term).tables.length = m.tables.length + 1 := by
    rw [hfe, Model.update_table_data_tables_length _ hpne hpd]
    show (m.tables ++ [_]).length = _
    rw [List.length_append]
    rfl
  have hrows : (m.filter term).activeT.rows =
      t.rows.filter (fun r =>
        strContains ((m.data.getD (t.offset_column + t.curser_column) default).data.getD r "")
          term) := by
    rw [hfe, Model.update_table_data_activeT _ hpne hpd, Model.refreshedView_rows, hpact]
    show matched.map (fun midx => m.activeT.rows.getD midx 0) = _
    rw [hact, hmatched]
    exact search_column_map_getD term _ t.rows
  have hname : (m.filter term).activeT.name = "F[" ++ t.name ++ "]" := by
    rw [hfe, Model.update_table_data_activeT _ hpne hpd, Model.refreshedView_name, hpact, hact]
  -- the exit leg
  have hfmod : (m.filter term).modus = Modus.TABLE := by
    rw [hfe, Model.update_table_data_modus]
    exact hmodus
  have hflen1 : 1 < (m.filter term).tables.length := by
    rw [hlen]
    have : 0 < m.tables.length := List.length_pos.mpr htne
    omega
  have hexit : (m.filter term).exit =
      ({ m.filter term with tables := (m.filter term).tables.dropLast }).update_table_data :=
    Model.exit_table (m.filter term) hfmod hflen1
  have hpop_ne : ({ m.filter term with
      tables := (m.filter term).tables.dropLast } : Model).tables ≠ [] := by
    show (m.filter term).tables.dropLast ≠ []
    rw [hdrop]
    exact htne
  have hpop_d : ({ m.filter term with
      tables := (m.filter term).tables.dropLast } : Model).data ≠ [] := by
    show (m.filter term).data ≠ []
    have hl : (m.filter term).data.length = m.data.length := by
      rw [hfe, Model.update_table_data_data_length]
      rfl
    intro hnil
    rw [hnil] at hl
    exact hd (List.length_eq_zero.mp hl.symm)
  have hpop_act : ({ m.filter term with
      tables := (m.filter term).tables.dropLast } : Model).activeT = t := by
    show ((m.filter term).tables.dropLast).getLastD TableView.empty = t
    rw [hdrop]
    show m.activeT = t
    exact hact
  refine ⟨hdrop, hrows, hname, ?_, ?_, ?_⟩
  · rw [hexit, Model.update_table_data_tables_length _ hpop_ne hpop_d]
    show (m.filter term).tables.dropLast.length = _
    rw [hdrop]
  · rw [hexit, Model.update_table_data_activeT _ hpop_ne hpop_d, Model.refreshedView_rows,
      hpop_act]
  · rw [hexit, Model.update_table_data_activeT _ hpop_ne hpop_d, Model.refreshedView_name,
      hpop_act]

/-- C2 witness: filtering the two-column five-row model for x3 yields the
one-row child F of the parent; exiting restores the identity mapping. -/
theorem c2_witness :
    (mAB.filter "x3").tables.dropLast = mAB.tables ∧
    (mAB.filter "x3").activeT.rows = [2] ∧
    (mAB.filter "x3").exit.activeT.rows = [0, 1, 2, 3, 4] := by
  have h := c2_filter_composition mAB mAB.activeT
    (Model.tables_getLast?_eq mAB (by decide)) (by decide) (by decide) "x3"
  refine ⟨h.1, ?_, ?_⟩
  · rw [h.2.1]
    decide
  · rw [h.2.2.2.2.1]
    decide

lemma insertLe_perm {α : Type} (le : α → α → Bool) (a : α) :
    ∀ l : List α, (insertLe le a l).Perm (a :: l)
  | [] => List.Perm.refl _
  | b :: bs => by
    unfold insertLe
    split
    · exact List.Perm.refl _
    · exact (List.Perm.cons b (insertLe_perm le a bs)).trans (List.Perm.swap a b bs)

lemma sortBy_perm {α : Type} (le : α → α → Bool) :
    ∀ l : List α, (sortBy le l).Perm l
  | [] => List.Perm.refl _
  | x :: xs => (insertLe_perm le x (sortBy le xs)).trans (List.Perm.cons x (sortBy_perm le xs))

lemma sortBy_length {α : Type} (le : α → α → Bool) (l : List α) :
    (sortBy le l).length = l.length :=
  (sortBy_perm le l).length_eq

lemma mem_sortBy {α : Type} (le : α → α → Bool) (l : List α) (a : α) :
    a ∈ sortBy le l ↔ a ∈ l :=
  (sortBy_perm le l).mem_iff

lemma sortBy_ne_nil {α : Type} (le : α → α → Bool) (l : List α) (h : l ≠ []) :
    sortBy le l ≠ [] := by
  intro hs
  apply h
  have := sortBy_length le l
  rw [hs] at this
  exact List.length_eq_zero.mp this.symm

lemma findIdx?_some_spec {α : Type} (p : α → Bool) (d : α) :
    ∀ (l : List α) (j : Nat), List.findIdx? p l = some j →
      j < l.length ∧ p (l.getD j d) = true ∧ ∀ k, k < j → p (l.getD k d) = false
  | [], j => by intro h; cases h
  | x :: xs, j => by
    intro h
    rw [List.findIdx?_cons] at h
    by_cases hp : p x
    · rw [if_pos hp] at h
      cases h
      exact ⟨Nat.succ_pos _, hp, fun k hk => absurd hk (Nat.not_lt_zero k)⟩
    · rw [if_neg hp, List.findIdx?_succ] at h
      cases hfx : List.findIdx? p xs with
      | none => rw [hfx] at h; cases h
      | some j' =>
        rw [hfx] at h
        have hj : j = j' + 1 := by
          simp only [Option.map] at h
          cases h
          rfl
        obtain ⟨hlt, hpj, hbefore⟩ := findIdx?_some_spec p d xs j' hfx
        subst hj
        refine ⟨Nat.succ_lt_succ hlt, ?_, ?_⟩
        · rw [List.getD_cons_succ]
          exact hpj
        · intro k hk
          cases k with
          | zero =>
            rw [List.getD_cons_zero]
            exact Bool.not_eq_true _ ▸ (by simpa using hp)
          | succ k' =>
            rw [List.getD_cons_succ]
            exact hbefore k' (Nat.lt_of_succ_lt_succ hk)

/-- The column stage of Model::select_cell: when the target column is
already visible only the column curser moves to it, otherwise the view is
re-anchored at the target column. -/
def select_cell_col (t : TableView) (column : Nat) : TableView :=
  if t.visible_columns.contains column then
    { t with curser_column :=
        (List.findIdx? (fun c => decide (c = column)) t.visible_columns).getD 0 }
  else
    { t with offset_column := column, curser_column := 0 }

/-- The row stage of Model::select_cell: a target row inside the vertical
window moves only the row curser, otherwise the window is re-anchored. -/
def select_cell_row_set (t1 : TableView) (row : Nat) : TableView :=
  if row ≥ t1.offset_row ∧ row < t1.offset_row + t1.heigh then
    { t1 with curser_row := row - t1.offset_row }
  else
    { t1 with curser_row := 0, offset_row := row }

lemma Model.select_cell_eq (m : Model) (ht : m.tables ≠ []) (row column : Nat) :
    m.select_cell row column =
      (m.setActive (select_cell_row_set (select_cell_col m.activeT column) row)).update_table_data := by
  unfold Model.select_cell
  rw [Model.tables_getLast?_eq m ht]
  rfl

lemma select_cell_col_fields (t : TableView) (column : Nat) :
    (select_cell_col t column).search_results = t.search_results ∧
    (select_cell_col t column).search_idx = t.search_idx ∧
    (select_cell_col t column).rows = t.rows ∧
    (select_cell_col t column).offset_row = t.offset_row ∧
    (select_cell_col t column).curser_row = t.curser_row ∧
    (select_cell_col t column).heigh = t.heigh := by
  unfold select_cell_col
  split <;> exact ⟨rfl, rfl, rfl, rfl, rfl, rfl⟩

lemma select_cell_row_set_fields (t1 : TableView) (row : Nat) :
    (select_cell_row_set t1 row).search_results = t1.search_results ∧
    (select_cell_row_set t1 row).search_idx = t1.search_idx ∧
    (select_cell_row_set t1 row).rows = t1.rows := by
  unfold select_cell_row_set
  split <;> exact ⟨rfl, rfl, rfl⟩

lemma Model.select_cell_search_preserved (m : Model) (ht : m.tables ≠ [])
    (hd : m.data ≠ []) (row column : Nat) :
    (m.select_cell row column).activeT.search_results = m.activeT.search_results ∧
    (m.select_cell row column).activeT.search_idx = m.activeT.search_idx ∧
    (m.select_cell row column).activeT.rows = m.activeT.rows ∧
    (m.select_cell row column).tables ≠ [] ∧
    (m.select_cell row column).data.length = m.data.length := by
  rw [Model.select_cell_eq m ht row column]
  set t2 := select_cell_row_set (select_cell_col m.activeT column) row with ht2
  have hne : (m.setActive t2).tables ≠ [] := Model.setActive_tables_ne m t2
  have hdd : (m.setActive t2).data ≠ [] := hd
  have hat := Model.update_table_data_activeT (m.setActive t2) hne hdd
  rw [Model.setActive_activeT] at hat
  obtain ⟨c1, c2, c3, -, -, -⟩ := select_cell_col_fields m.activeT column
  obtain ⟨r1, r2, r3⟩ := select_cell_row_set_fields (select_cell_col m.activeT column) row
  refine ⟨?_, ?_, ?_, ?_, ?_⟩
  · rw [hat, Model.refreshedView_search_results, ht2, r1, c1]
  · rw [hat, Model.refreshedView_search_idx, ht2, r2, c2]
  · rw [hat, Model.refreshedView_rows, ht2, r3, c3]
  · exact Model.update_table_data_tables_ne _ hne hdd
  · rw [Model.update_table_data_data_length]
    rfl

lemma getD_mem_of_lt {α : Type} (l : List α) (i : Nat) (d : α) (h : i < l.length) :
    l.getD i d ∈ l := by
  rw [List.getD_eq_getElem?_getD, List.getElem?_eq_getElem h]
  exact List.getElem_mem h

/-- The wraparound step computation of Model::search_next. -/
def next_idx (search_idx total : Nat) (step : Int) : Nat :=
  if step ≥ 0 then
    if search_idx + step.toNat ≥ total then 0 else search_idx + step.toNat
  else if (search_idx : Int) + step < 0 then total - 1
  else ((search_idx : Int) + step).toNat

lemma Model.search_next_spec (m : Model) (ht : m.tables ≠ []) (hd : m.data ≠ [])
    (htot : m.activeT.search_results.length > 0) (step : Int) :
    (m.search_next step).activeT.search_idx =
      next_idx m.activeT.search_idx m.activeT.search_results.length step ∧
    (m.search_next step).activeT.search_results = m.activeT.search_results ∧
    (m.search_next step).tables ≠ [] ∧
    (m.search_next step).data.length = m.data.length := by
  unfold Model.search_next
  rw [Model.tables_getLast?_eq m ht]
  show ((if m.activeT.search_results.length > 0 then _ else m).activeT.search_idx =
      next_idx m.activeT.search_idx m.activeT.search_results.length step) ∧
    ((if m.activeT.search_results.length > 0 then _ else m).activeT.search_results =
      m.activeT.search_results) ∧
    ((if m.activeT.search_results.length > 0 then _ else m).tables ≠ []) ∧
    ((if m.activeT.search_results.length > 0 then _ else m).data.length = m.data.length)
  rw [if_pos htot]
  have P := Model.select_cell_search_preserved
    (m.setActive { m.activeT with
      search_idx := next_idx m.activeT.search_idx m.activeT.search_results.length step })
    (Model.setActive_tables_ne _ _) hd
    (m.activeT.search_results.getD
      (next_idx m.activeT.search_idx m.activeT.search_results.length step) (0, 0)).1
    (m.activeT.search_results.getD
      (next_idx m.activeT.search_idx m.activeT.search_results.length step) (0, 0)).2
  refine ⟨?_, ?_, ?_, ?_⟩
  · exact P.2.1.trans (by rw [Model.setActive_activeT])
  · exact P.1.trans (by rw [Model.setActive_activeT])
  · exact P.2.2.2.1
  · exact P.2.2.2.2

lemma Model.search_spec (m : Model) (ht : m.tables ≠ []) (hd : m.data ≠ [])
    (term : String) (co : Bool) (hne : m.matching_rows m.activeT term co ≠ []) :
    (m.search term co).activeT.search_results =
      sortBy pairLe (m.matching_rows m.activeT term co) ∧
    (m.search term co).activeT.search_idx =
      (List.findIdx? (fun p => decide (p.1 ≥ m.activeT.offset_row + m.activeT.curser_row))
        (sortBy pairLe (m.matching_rows m.activeT term co))).getD 0 ∧
    (m.search term co).tables ≠ [] ∧
    (m.search term co).data.length = m.data.length := by
  unfold Model.search
  rw [Model.tables_getLast?_eq m ht]
  have hie : (m.matching_rows m.activeT term co).isEmpty = false :=
    List.isEmpty_eq_false.mpr hne
  show ((if (m.matching_rows m.activeT term co).isEmpty = true then (_ : Model) else (_ : Model)).activeT.search_results = sortBy pairLe (m.matching_rows m.activeT term co)) ∧
    ((if (m.matching_rows m.activeT term co).isEmpty = true then (_ : Model) else (_ : Model)).activeT.search_idx =
      (List.findIdx? (fun p => decide (p.1 ≥ m.activeT.offset_row + m.activeT.curser_row))
        (sortBy pairLe (m.matching_rows m.activeT term co))).getD 0) ∧
    ((if (m.matching_rows m.activeT term co).isEmpty = true then (_ : Model) else (_ : Model)).tables ≠ []) ∧
    ((if (m.matching_rows m.activeT term co).isEmpty = true then (_ : Model) else (_ : Model)).data.length =
      m.data.length)
  rw [hie, if_neg Bool.false_ne_true]
  set results := sortBy pairLe (m.matching_rows m.activeT term co) with hres
  set sidx := (List.findIdx?
    (fun p => decide (p.1 ≥ m.activeT.offset_row + m.activeT.curser_row)) results).getD 0
    with hsidx
  have hrlen : 0 < results.length := by
    rw [hres, sortBy_length]
    exact List.length_pos.mpr hne
  have hsidx_lt : sidx < results.length := by
    rw [hsidx]
    cases hfi : List.findIdx?
        (fun p => decide (p.1 ≥ m.activeT.offset_row + m.activeT.curser_row)) results with
    | none => exact hrlen
    | some j =>
      obtain ⟨hj, -, -⟩ := findIdx?_some_spec _ (0, 0) results j hfi
      exact hj
  set m1 := m.setActive { m.activeT with search_results := results, search_idx := sidx }
    with hm1
  have hm1act : m1.activeT = { m.activeT with search_results := results, search_idx := sidx } :=
    Model.setActive_activeT _ _
  have htot1 : m1.activeT.search_results.length > 0 := by
    rw [hm1act]
    exact hrlen
  have SNS := Model.search_next_spec m1 (Model.setActive_tables_ne _ _) hd htot1 0
  have hnext0 : next_idx m1.activeT.search_idx m1.activeT.search_results.length 0 = sidx := by
    rw [hm1act]
    show next_idx sidx results.length 0 = sidx
    unfold next_idx
    rw [if_pos (by decide : (0 : Int) ≥ 0)]
    rw [if_neg (by simpa using Nat.not_le.mpr hsidx_lt)]
    omega
  refine ⟨?_, ?_, ?_, ?_⟩
  · exact SNS.2.1.trans (by rw [hm1act])
  · exact SNS.1.trans (by rw [hnext0])
  · exact SNS.2.2.1
  · exact SNS.2.2.2

lemma next_idx_zero (j total : Nat) (hj : j < total) : next_idx j total 0 = j := by
  unfold next_idx
  rw [if_pos (by decide : (0 : Int) ≥ 0)]
  rw [show (0 : Int).toNat = 0 from rfl]
  rw [if_neg (by omega)]
  omega

lemma next_idx_one (j total : Nat) (hj : j < total) : next_idx j total 1 = (j + 1) % total := by
  unfold next_idx
  rw [if_pos (by decide : (1 : Int) ≥ 0)]
  rw [show (1 : Int).toNat = 1 from rfl]
  by_cases hc : j + 1 ≥ total
  · rw [if_pos hc]
    have hjt : j + 1 = total := by omega
    rw [hjt, Nat.mod_self]
  · rw [if_neg hc, Nat.mod_eq_of_lt (by omega)]

lemma next_idx_neg_one (j total : Nat) (hj : j < total) (htot : 0 < total) :
    next_idx j total (-1) = (j + total - 1) % total := by
  unfold next_idx
  rw [if_neg (by decide : ¬ ((-1 : Int) ≥ 0))]
  by_cases hj0 : j = 0
  · subst hj0
    rw [if_pos (by decide : ((0 : Nat) : Int) + (-1) < 0)]
    have hz : 0 + total - 1 = total - 1 := by omega
    rw [hz, Nat.mod_eq_of_lt (by omega)]
  · rw [if_neg (by omega : ¬ ((j : Int) + (-1) < 0))]
    have h1 : ((j : Int) + (-1)).toNat = j - 1 := by omega
    rw [h1]
    have h2 : j + total - 1 = (j - 1) + total := by omega
    rw [h2, Nat.add_mod_right, Nat.mod_eq_of_lt (by omega)]

/-- C4: after a search over the active view that yields at least one match,
the match curser is set to the index of the first match of the sorted
result list whose view-row is at or after the current absolute row, or to 0
when no match qualifies; the step of 0 applied right after the fresh search
re-applies that index without advancing; and subsequent next and previous
steps move the match curser by plus one and minus one with modular
wraparound over the match count. -/
theorem c4_search_cursor (m : Model) (t : TableView) (ht : m.tables.getLast? = some t)
    (hd : m.data ≠ []) (term : String) (co : Bool)
    (hne : m.matching_rows t term co ≠ []) :
    ((m.search term co).activeT.search_results).Perm (m.matching_rows t term co) ∧
    (m.search term co).activeT.search_idx < (m.search term co).activeT.search_results.length ∧
    ((∃ p ∈ (m.search term co).activeT.search_results, t.offset_row + t.curser_row ≤ p.1) →
      t.offset_row + t.curser_row ≤
        ((m.search term co).activeT.search_results.getD
          (m.search term co).activeT.search_idx (0, 0)).1 ∧
      ∀ k, k < (m.search term co).activeT.search_idx →
        ((m.search term co).activeT.search_results.getD k (0, 0)).1 <
          t.offset_row + t.curser_row) ∧
    ((∀ p ∈ (m.search term co).activeT.search_results, p.1 < t.offset_row + t.curser_row) →
      (m.search term co).activeT.search_idx = 0) ∧
    (((m.search term co).search_next 0).activeT.search_idx =
        (m.search term co).activeT.search_idx ∧
      ((m.search term co).search_next 0).activeT.search_results =
        (m.search term co).activeT.search_results) ∧
    ((m.search term co).search_next 1).activeT.search_idx =
      ((m.search term co).activeT.search_idx + 1) %
        (m.search term co).activeT.search_results.length ∧
    ((m.search term co).search_next (-1)).activeT.search_idx =
      ((m.search term co).activeT.search_idx +
          (m.search term co).activeT.search_results.length - 1) %
        (m.search term co).activeT.search_results.length := by
  have htne : m.tables ≠ [] := tables_ne_of_getLast? m t ht
  have hact : m.activeT = t := Model.activeT_of_getLast? m t ht
  rw [← hact] at hne ⊢
  have S := Model.search_spec m htne hd term co hne
  set cur := m.activeT.offset_row + m.activeT.curser_row with hcur
  set res := sortBy pairLe (m.matching_rows m.activeT term co) with hresdef
  have hlen : 0 < res.length := by
    rw [hresdef, sortBy_length]
    exact List.length_pos.mpr hne
  have hidx_lt : (m.search term co).activeT.search_idx <
      (m.search term co).activeT.search_results.length := by
    rw [S.1, S.2.1]
    cases hfi : List.findIdx? (fun p => decide (p.1 ≥ cur)) res with
    | none => exact hlen
    | some j =>
      obtain ⟨hj, -, -⟩ := findIdx?_some_spec _ (0, 0) res j hfi
      exact hj
  have hSd : (m.search term co).data ≠ [] := by
    intro hnil
    have := S.2.2.2
    rw [hnil] at this
    exact hd (List.length_eq_zero.mp this.symm)
  have htotS : (m.search term co).activeT.search_results.length > 0 := by
    rw [S.1]
    exact hlen
  have SN0 := Model.search_next_spec (m.search term co) S.2.2.1 hSd htotS 0
  have SN1 := Model.search_next_spec (m.search term co) S.2.2.1 hSd htotS 1
  have SNm := Model.search_next_spec (m.search term co) S.2.2.1 hSd htotS (-1)
  refine ⟨?_, hidx_lt, ?_, ?_, ⟨?_, SN0.2.1⟩, ?_, ?_⟩
  · rw [S.1, hresdef]
    exact sortBy_perm _ _
  · intro hex
    rw [S.1] at hex
    rw [S.1, S.2.1]
    cases hfi : List.findIdx? (fun p => decide (p.1 ≥ cur)) res with
    | none =>
      exfalso
      obtain ⟨p, hp, hple⟩ := hex
      have := List.findIdx?_eq_none_iff.mp hfi p hp
      simp at this
      omega
    | some j =>
      obtain ⟨hj, hpj, hbefore⟩ := findIdx?_some_spec _ (0, 0) res j hfi
      constructor
      · simpa using of_decide_eq_true hpj
      · intro k hk
        have := hbefore k (by simpa using hk)
        simpa using of_decide_eq_false this
  · intro hall
    rw [S.1] at hall
    rw [S.2.1]
    cases hfi : List.findIdx? (fun p => decide (p.1 ≥ cur)) res with
    | none => rfl
    | some j =>
      exfalso
      obtain ⟨hj, hpj, -⟩ := findIdx?_some_spec _ (0, 0) res j hfi
      have hmem := getD_mem_of_lt res j (0, 0) hj
      have hlt := hall _ hmem
      have hge : cur ≤ (res.getD j (0, 0)).1 := by simpa using of_decide_eq_true hpj
      omega
  · rw [SN0.1, next_idx_zero _ _ hidx_lt]
  · rw [SN1.1, next_idx_one _ _ hidx_lt]
  · rw [SNm.1, next_idx_neg_one _ _ hidx_lt htotS]

/-- C4 witness: searching the two-column model for x with the cursor at the
origin selects match index 0, the zero step does not advance, and next and
previous wrap over the ten matches. -/
theorem c4_witness :
    (mAB.search "x" false).activeT.search_idx <
      (mAB.search "x" false).activeT.search_results.length ∧
    ((mAB.search "x" false).search_next 0).activeT.search_idx =
      (mAB.search "x" false).activeT.search_idx := by
  have h := c4_search_cursor mAB mAB.activeT
    (Model.tables_getLast?_eq mAB (by decide)) (by decide) "x" false (by decide)
  exact ⟨h.2.1, h.2.2.2.2.1.1⟩

lemma collectVisible_shape (tw : Nat) :
    ∀ (ws : List Nat) (cidx vw : Nat),
      ∃ n, (collectVisible tw ws cidx vw).1 = List.range' cidx n ∧ n ≤ ws.length
  | [], cidx, vw => ⟨0, rfl, Nat.zero_le _⟩
  | w :: rest, cidx, vw => by
    unfold collectVisible
    split
    · obtain ⟨n, hn, hle⟩ := collectVisible_shape tw rest (cidx + 1) (vw + (w + 1))
      refine ⟨n + 1, ?_, by simpa using Nat.succ_le_succ hle⟩
      show cidx :: (collectVisible tw rest (cidx + 1) (vw + (w + 1))).1 = _
      rw [hn, List.range'_succ]
    · split
      · exact ⟨1, rfl, by simp⟩
      · exact ⟨0, rfl, Nat.zero_le _⟩

lemma collectVisible_ne_nil (tw : Nat) (ws : List Nat) (cidx vw : Nat)
    (hws : ws ≠ []) (hvw : vw < tw) : (collectVisible tw ws cidx vw).1 ≠ [] := by
  cases ws with
  | nil => exact absurd rfl hws
  | cons w rest =>
    unfold collectVisible
    by_cases h : vw + (w + 1) ≤ tw
    · rw [if_pos h]
      simp
    · rw [if_neg h, if_pos hvw]
      simp

lemma Model.collectFor_shape (m : Model) (t0 : TableView) :
    ∃ n, (m.collectFor t0).1 = List.range' t0.offset_column n ∧
      n ≤ m.data.length - t0.offset_column := by
  obtain ⟨n, hn, hle⟩ := collectVisible_shape m.uilayout.table_width
    ((m.widthsAfter.drop t0.offset_column).map (fun c => c.render_width)) t0.offset_column 0
  refine ⟨n, hn, ?_⟩
  rw [List.length_map, List.length_drop, Model.widthsAfter_length] at hle
  exact hle

lemma Model.collectFor_ne_nil (m : Model) (t0 : TableView)
    (hoc : t0.offset_column < m.data.length) (htw : 1 ≤ m.uilayout.table_width) :
    (m.collectFor t0).1 ≠ [] := by
  apply collectVisible_ne_nil
  · intro hnil
    rw [List.map_eq_nil_iff, List.drop_eq_nil_iff, Model.widthsAfter_length] at hnil
    omega
  · omega

lemma makeColumnViews_head (data2 : List Column) (rows : List Nat) (rbegin rend : Nat)
    (idx0 : Nat) (vis' : List Nat) (hidx : idx0 < data2.length) (hre : rend ≤ rows.length) :
    ((makeColumnViews data2 rows rbegin rend (idx0 :: vis')).headD ColumnView.empty).data.length
      = rend - rbegin := by
  unfold makeColumnViews
  rw [List.filterMap_cons, List.getElem?_eq_getElem hidx]
  show ((if data2[idx0].status = ColumnStatus.COLLAPSED
        then get_collapsed_column (rend - rbegin)
        else { name := get_visible_name data2[idx0].name data2[idx0].render_width,
               width := data2[idx0].render_width,
               data := ((rows.drop rbegin).take (rend - rbegin)).map
                 (fun ridx => data2[idx0].data.getD ridx "") }).data).length = rend - rbegin
  by_cases hs : data2[idx0].status = ColumnStatus.COLLAPSED
  · rw [if_pos hs]
    show (List.replicate (rend - rbegin) "⋮").length = rend - rbegin
    exact List.length_replicate _ _
  · rw [if_neg hs]
    show (((rows.drop rbegin).take (rend - rbegin)).map _).length = rend - rbegin
    rw [List.length_map, List.length_take, List.length_drop]
    omega

/-- The per-view window invariants of claim C1 for the active Table View,
together with the auxiliary facts the induction needs. -/
def Model.InvView (m : Model) (t : TableView) : Prop :=
  t.curser_row < t.heigh ∧
  t.offset_row + t.curser_row < t.rows.length ∧
  t.curser_column < t.visible_columns.length ∧
  t.heigh = m.uilayout.table_height ∧
  t.offset_column < m.data.length ∧
  t.offset_column + t.visible_columns.length ≤ m.data.length ∧
  (t.data.headD ColumnView.empty).data.length =
    min (t.offset_row + t.heigh) t.rows.length - t.offset_row ∧
  (∀ p ∈ t.search_results, p.1 < t.rows.length ∧ p.2 < m.data.length) ∧
  (t.search_results ≠ [] → t.search_idx < t.search_results.length)

/-- The engine invariant of claim C1: a non-empty stack over a non-empty
dataset in Table mode under a positive window, with the window invariants
holding for the active view. -/
def Model.Inv (m : Model) : Prop :=
  m.tables ≠ [] ∧ m.data ≠ [] ∧ m.modus = Modus.TABLE ∧
  1 ≤ m.uilayout.table_width ∧ 1 ≤ m.uilayout.table_height ∧
  m.uilayout.table_height = m.uilayout.height - CMDLINE_HEIGH - TABLE_HEADER_HEIGHT ∧
  m.InvView m.activeT

/-- An executable form of the engine invariant, used to establish the
invariant on concrete states by evaluation. -/
def Model.invCheck (m : Model) : Bool :=
  decide (m.tables ≠ []) &&
    (decide (m.data ≠ []) &&
      (decide (m.modus = Modus.TABLE) &&
        (decide (1 ≤ m.uilayout.table_width) &&
          (decide (1 ≤ m.uilayout.table_height) &&
            (decide (m.uilayout.table_height =
                m.uilayout.height - CMDLINE_HEIGH - TABLE_HEADER_HEIGHT) &&
              (decide (m.activeT.curser_row < m.activeT.heigh) &&
                (decide (m.activeT.offset_row + m.activeT.curser_row <
                    m.activeT.rows.length) &&
                  (decide (m.activeT.curser_column < m.activeT.visible_columns.length) &&
                    (decide (m.activeT.heigh = m.uilayout.table_height) &&
                      (decide (m.activeT.offset_column < m.data.length) &&
                        (decide (m.activeT.offset_column +
                            m.activeT.visible_columns.length ≤ m.data.length) &&
                          (decide ((m.activeT.data.headD ColumnView.empty).data.length =
                              min (m.activeT.offset_row + m.activeT.heigh)
                                m.activeT.rows.length - m.activeT.offset_row) &&
                            (decide (∀ p ∈ m.activeT.search_results,
                                p.1 < m.activeT.rows.length ∧ p.2 < m.data.length) &&
                              decide (m.activeT.search_results ≠ [] →
                                m.activeT.search_idx <
                                  m.activeT.search_results.length))))))))))))))

lemma Model.inv_of_invCheck (m : Model) (h : m.invCheck = true) : m.Inv := by
  unfold Model.invCheck at h
  simp only [Bool.and_eq_true, decide_eq_true_eq] at h
  exact h

/-- The refresh re-establishes the invariant from the raw facts about the
(possibly just modified) active view: the cursor row fits the height budget,
the absolute row is inside the mapping, the column offset is a real column,
and the search state is in range. -/
lemma Model.inv_of_update (m1 : Model) (htne : m1.tables ≠ []) (hd : m1.data ≠ [])
    (hmod : m1.modus = Modus.TABLE)
    (htw : 1 ≤ m1.uilayout.table_width) (hth : 1 ≤ m1.uilayout.table_height)
    (hsync : m1.uilayout.table_height =
      m1.uilayout.height - CMDLINE_HEIGH - TABLE_HEADER_HEIGHT)
    (hcr : m1.activeT.curser_row < m1.uilayout.table_height)
    (hor : m1.activeT.offset_row + m1.activeT.curser_row < m1.activeT.rows.length)
    (hoc : m1.activeT.offset_column < m1.data.length)
    (hsearch : ∀ p ∈ m1.activeT.search_results,
      p.1 < m1.activeT.rows.length ∧ p.2 < m1.data.length)
    (hsidx : m1.activeT.search_results ≠ [] →
      m1.activeT.search_idx < m1.activeT.search_results.length) :
    m1.update_table_data.Inv := by
  have hat := Model.update_table_data_activeT m1 htne hd
  have hvis_ne : (m1.collectFor m1.activeT).1 ≠ [] :=
    Model.collectFor_ne_nil m1 m1.activeT hoc htw
  obtain ⟨n, hshape, hnle⟩ := Model.collectFor_shape m1 m1.activeT
  have hn1 : 1 ≤ n := by
    rcases Nat.eq_zero_or_pos n with hz | hp
    · rw [hz] at hshape
      exact absurd hshape hvis_ne
    · exact hp
  have hvislen : (m1.collectFor m1.activeT).1.length = n := by
    rw [hshape, List.length_range']
  refine ⟨Model.update_table_data_tables_ne m1 htne hd, ?_, ?_, ?_, ?_, ?_, ?_⟩
  · intro hnil
    have hl := Model.update_table_data_data_length m1
    rw [hnil] at hl
    exact hd (List.length_eq_zero.mp hl.symm)
  · rw [Model.update_table_data_modus]
    exact hmod
  · rw [Model.update_table_data_uilayout]
    exact htw
  · rw [Model.update_table_data_uilayout]
    exact hth
  · rw [Model.update_table_data_uilayout]
    exact hsync
  · -- the InvView of the refreshed active view
    rw [hat]
    have hdl : m1.update_table_data.data.length = m1.data.length :=
      Model.update_table_data_data_length m1
    refine ⟨?_, ?_, ?_, ?_, ?_, ?_, ?_, ?_, ?_⟩
    · rw [Model.refreshedView_curser_row, Model.refreshedView_heigh]
      exact hcr
    · rw [Model.refreshedView_curser_row, Model.refreshedView_offset_row,
        Model.refreshedView_rows]
      exact hor
    · rw [Model.refreshedView_curser_column, Model.refreshedView_visible_columns, hvislen]
      omega
    · rw [Model.refreshedView_heigh, Model.update_table_data_uilayout]
    · rw [Model.refreshedView_offset_column, hdl]
      exact hoc
    · rw [Model.refreshedView_offset_column, Model.refreshedView_visible_columns, hvislen, hdl]
      omega
    · rw [Model.refreshedView_data, Model.refreshedView_rows, Model.refreshedView_offset_row,
        Model.refreshedView_heigh]
      have hsplit : (m1.collectFor m1.activeT).1 =
          m1.activeT.offset_column :: List.range' (m1.activeT.offset_column + 1) (n - 1) := by
        rw [hshape]
        cases n with
        | zero => omega
        | succ k =>
          rw [List.range'_succ]
          rfl
      rw [hsplit]
      apply makeColumnViews_head
      · rw [applyPartialWidth_length, Model.widthsAfter_length]
        exact hoc
      · exact Nat.min_le_right _ _
    · rw [Model.refreshedView_search_results, Model.refreshedView_rows, hdl]
      exact hsearch
    · rw [Model.refreshedView_search_results, Model.refreshedView_search_idx]
      exact hsidx

lemma search_column_mem_lt (term : String) (col : Column) :
    ∀ (mask : List Nat) (i : Nat), i ∈ search_column term col mask → i < mask.length
  | [], i => by
    intro h
    rw [show search_column term col [] = [] from rfl] at h
    cases h
  | r :: R, i => by
    intro h
    rw [search_column_cons, List.mem_append] at h
    cases h with
    | inl h1 =>
      by_cases hc : strContains (col.data.getD r "") term
      · rw [if_pos hc, List.mem_singleton] at h1
        rw [h1, List.length_cons]
        omega
      · rw [if_neg hc] at h1
        cases h1
    | inr h2 =>
      rw [List.mem_map] at h2
      obtain ⟨j, hj, hji⟩ := h2
      have := search_column_mem_lt term col R j hj
      rw [List.length_cons]
      omega

/-- Every match produced by the scan of Model::search is a valid view-row
index paired with a valid dataset-column index, as long as the selected
column index is itself in range. -/
lemma Model.matching_rows_bounds (m : Model) (t : TableView) (term : String) (co : Bool)
    (hcc : t.curser_column + t.offset_column < m.data.length) (p : Nat × Nat)
    (hp : p ∈ m.matching_rows t term co) : p.1 < t.rows.length ∧ p.2 < m.data.length := by
  unfold Model.matching_rows at hp
  split at hp
  · rw [List.mem_map] at hp
    obtain ⟨r, hr, hrp⟩ := hp
    have := search_column_mem_lt term _ t.rows r hr
    rw [← hrp]
    exact ⟨this, hcc⟩
  · rw [List.mem_flatMap] at hp
    obtain ⟨a, ha, hpa⟩ := hp
    rw [List.mem_map] at hpa
    obtain ⟨r, hr, hrp⟩ := hpa
    have hrlt := search_column_mem_lt term a.2 t.rows r hr
    obtain ⟨i, c⟩ := a
    have hia := List.mem_enumFrom ha
    rw [← hrp]
    exact ⟨hrlt, by omega⟩

/-- Replacing the active view and refreshing preserves the engine invariant
whenever the raw cursor, offset and search facts hold for the new view. -/
lemma Model.inv_setActive_update (m : Model) (t' : TableView) (h : m.Inv)
    (hcr : t'.curser_row < m.uilayout.table_height)
    (hor : t'.offset_row + t'.curser_row < t'.rows.length)
    (hoc : t'.offset_column < m.data.length)
    (hsearch : ∀ p ∈ t'.search_results, p.1 < t'.rows.length ∧ p.2 < m.data.length)
    (hsidx : t'.search_results ≠ [] → t'.search_idx < t'.search_results.length) :
    ((m.setActive t').update_table_data).Inv := by
  obtain ⟨htne, hd, hmod, htw, hth, hsync, -⟩ := h
  refine Model.inv_of_update (m.setActive t') (Model.setActive_tables_ne m t')
    hd hmod htw hth hsync ?_ ?_ ?_ ?_ ?_
  · rw [Model.setActive_activeT]
    exact hcr
  · rw [Model.setActive_activeT]
    exact hor
  · rw [Model.setActive_activeT]
    exact hoc
  · rw [Model.setActive_activeT]
    exact hsearch
  · rw [Model.setActive_activeT]
    exact hsidx

/-- The invariant ignores the status message. -/
lemma Model.inv_status_msg (m : Model) (s : String) (h : m.Inv) :
    ({ m with status_message := s } : Model).Inv := h

/-- Replacing the active view without a refresh, together with a status
message, preserves the invariant when the window invariants hold for the
new view directly. -/
lemma Model.inv_setActive_msg (m : Model) (t' : TableView) (s : String)
    (h : m.Inv) (hiv : m.InvView t') :
    ({ m.setActive t' with status_message := s } : Model).Inv := by
  obtain ⟨htne, hd, hmod, htw, hth, hsync, -⟩ := h
  refine ⟨?_, hd, hmod, htw, hth, hsync, ?_⟩
  · show (m.setActive t').tables ≠ []
    exact Model.setActive_tables_ne m t'
  · have hact : ({ m.setActive t' with status_message := s } : Model).activeT = t' := by
      show ((m.tables.dropLast ++ [t']).getLastD TableView.empty) = t'
      exact List.getLastD_concat _ _ _
    rw [hact]
    exact hiv

lemma next_idx_lt (j total : Nat) (step : Int) (htot : 0 < total) (hj : j < total) :
    next_idx j total step < total := by
  unfold next_idx
  split
  · split <;> omega
  · split <;> omega

lemma Model.move_up_eq (m : Model) (ht : m.tables ≠ []) (size : Nat) :
    m.move_table_selection_up size =
      (m.setActive (if m.activeT.curser_row > 0 then
          { m.activeT with curser_row := m.activeT.curser_row - size }
        else if m.activeT.offset_row > 0 then
          { m.activeT with offset_row := m.activeT.offset_row - size }
        else m.activeT)).update_table_data := by
  unfold Model.move_table_selection_up
  rw [Model.tables_getLast?_eq m ht]

lemma Model.move_down_eq (m : Model) (ht : m.tables ≠ []) (size : Nat) :
    m.move_table_selection_down size =
      if m.activeT.curser_row + m.activeT.offset_row < m.activeT.rows.length - 1 then
        (m.setActive (if m.activeT.curser_row < m.uilayout.table_height - 1 then
            { m.activeT with
              curser_row := min (m.activeT.curser_row + size)
                ((m.activeT.data.headD ColumnView.empty).data.length - 1) }
          else
            { m.activeT with
              offset_row := min (m.activeT.offset_row + size) (m.activeT.rows.length - 1)
              curser_row := min (m.uilayout.table_height - 1)
                (m.activeT.rows.length -
                  min (m.activeT.offset_row + size) (m.activeT.rows.length - 1) - 1) }
          )).update_table_data
      else m := by
  unfold Model.move_table_selection_down
  rw [Model.tables_getLast?_eq m ht]

lemma Model.move_left_eq (m : Model) (ht : m.tables ≠ []) :
    m.move_table_selection_left =
      (m.setActive (if m.activeT.curser_column > 0 then
          { m.activeT with curser_column := m.activeT.curser_column - 1 }
        else if m.activeT.offset_column > 0 then
          { m.activeT with offset_column := m.activeT.offset_column - 1 }
        else m.activeT)).update_table_data := by
  unfold Model.move_table_selection_left
  rw [Model.tables_getLast?_eq m ht]

lemma Model.move_right_eq (m : Model) (ht : m.tables ≠ []) :
    m.move_table_selection_right =
      if m.activeT.curser_column + m.activeT.offset_column < m.data.length - 1 then
        (m.setActive (if m.activeT.curser_column < m.activeT.visible_columns.length - 1 then
            { m.activeT with curser_column := m.activeT.curser_column + 1 }
          else
            { m.activeT with offset_column := m.activeT.offset_column + 1 })).update_table_data
      else if m.activeT.visible_width > m.activeT.width ∧
          m.activeT.offset_column < m.data.length - 1 then
        (m.setActive
          { m.activeT with offset_column := m.activeT.offset_column + 1 }).update_table_data
      else m := by
  unfold Model.move_table_selection_right
  rw [Model.tables_getLast?_eq m ht]

lemma Model.move_beginning_eq (m : Model) (ht : m.tables ≠ []) :
    m.move_table_selection_beginning =
      (m.setActive { m.activeT with
        curser_row := 0
        offset_row := 0 }).update_table_data := by
  unfold Model.move_table_selection_beginning
  rw [Model.tables_getLast?_eq m ht]

lemma Model.move_end_eq (m : Model) (ht : m.tables ≠ []) :
    m.move_table_selection_end =
      (m.setActive (if m.activeT.rows.length < m.uilayout.table_height then
          { m.activeT with
            offset_row := 0
            curser_row := m.activeT.rows.length - 1 }
        else
          { m.activeT with
            offset_row := m.activeT.rows.length - m.uilayout.table_height
            curser_row := m.uilayout.table_height - 1 })).update_table_data := by
  unfold Model.move_table_selection_end
  rw [Model.tables_getLast?_eq m ht]

lemma Model.inv_move_up (m : Model) (size : Nat) (h : m.Inv) :
    (m.move_table_selection_up size).Inv := by
  obtain ⟨htne, hd, hmod, htw, hth, hsync, hcr, hor, hcc, hheigh, hoc, hocv, hhead, hsr, hsi⟩ :=
    id h
  rw [Model.move_up_eq m htne size]
  by_cases h1 : m.activeT.curser_row > 0
  · rw [if_pos h1]
    refine Model.inv_setActive_update m _ h ?_ ?_ ?_ hsr hsi
    · show m.activeT.curser_row - size < m.uilayout.table_height
      omega
    · show m.activeT.offset_row + (m.activeT.curser_row - size) < m.activeT.rows.length
      omega
    · exact hoc
  · rw [if_neg h1]
    by_cases h2 : m.activeT.offset_row > 0
    · rw [if_pos h2]
      refine Model.inv_setActive_update m _ h ?_ ?_ ?_ hsr hsi
      · show m.activeT.curser_row < m.uilayout.table_height
        omega
      · show m.activeT.offset_row - size + m.activeT.curser_row < m.activeT.rows.length
        omega
      · exact hoc
    · rw [if_neg h2]
      refine Model.inv_setActive_update m _ h ?_ hor hoc hsr hsi
      show m.activeT.curser_row < m.uilayout.table_height
      omega

lemma Model.inv_move_down (m : Model) (size : Nat) (h : m.Inv) :
    (m.move_table_selection_down size).Inv := by
  obtain ⟨htne, hd, hmod, htw, hth, hsync, hcr, hor, hcc, hheigh, hoc, hocv, hhead, hsr, hsi⟩ :=
    id h
  rw [Model.move_down_eq m htne size]
  by_cases hg : m.activeT.curser_row + m.activeT.offset_row < m.activeT.rows.length - 1
  · rw [if_pos hg]
    by_cases hi : m.activeT.curser_row < m.uilayout.table_height - 1
    · rw [if_pos hi]
      refine Model.inv_setActive_update m _ h ?_ ?_ ?_ hsr hsi
      · show min (m.activeT.curser_row + size)
          ((m.activeT.data.headD ColumnView.empty).data.length - 1) < m.uilayout.table_height
        omega
      · show m.activeT.offset_row + min (m.activeT.curser_row + size)
          ((m.activeT.data.headD ColumnView.empty).data.length - 1) < m.activeT.rows.length
        omega
      · exact hoc
    · rw [if_neg hi]
      refine Model.inv_setActive_update m _ h ?_ ?_ ?_ hsr hsi
      · show min (m.uilayout.table_height - 1)
          (m.activeT.rows.length -
            min (m.activeT.offset_row + size) (m.activeT.rows.length - 1) - 1) <
          m.uilayout.table_height
        omega
      · show min (m.activeT.offset_row + size) (m.activeT.rows.length - 1) +
          min (m.uilayout.table_height - 1)
            (m.activeT.rows.length -
              min (m.activeT.offset_row + size) (m.activeT.rows.length - 1) - 1) <
          m.activeT.rows.length
        omega
      · exact hoc
  · rw [if_neg hg]
    exact h

lemma Model.inv_move_left (m : Model) (h : m.Inv) :
    (m.move_table_selection_left).Inv := by
  obtain ⟨htne, hd, hmod, htw, hth, hsync, hcr, hor, hcc, hheigh, hoc, hocv, hhead, hsr, hsi⟩ :=
    id h
  rw [Model.move_left_eq m htne]
  by_cases h1 : m.activeT.curser_column > 0
  · rw [if_pos h1]
    refine Model.inv_setActive_update m _ h ?_ hor hoc hsr hsi
    show m.activeT.curser_row < m.uilayout.table_height
    omega
  · rw [if_neg h1]
    by_cases h2 : m.activeT.offset_column > 0
    · rw [if_pos h2]
      refine Model.inv_setActive_update m _ h ?_ hor ?_ hsr hsi
      · show m.activeT.curser_row < m.uilayout.table_height
        omega
      · show m.activeT.offset_column - 1 < m.data.length
        omega
    · rw [if_neg h2]
      refine Model.inv_setActive_update m _ h ?_ hor hoc hsr hsi
      show m.activeT.curser_row < m.uilayout.table_height
      omega

lemma Model.inv_move_right (m : Model) (h : m.Inv) :
    (m.move_table_selection_right).Inv := by
  obtain ⟨htne, hd, hmod, htw, hth, hsync, hcr, hor, hcc, hheigh, hoc, hocv, hhead, hsr, hsi⟩ :=
    id h
  rw [Model.move_right_eq m htne]
  by_cases hg : m.activeT.curser_column + m.activeT.offset_column < m.data.length - 1
  · rw [if_pos hg]
    by_cases hi : m.activeT.curser_column < m.activeT.visible_columns.length - 1
    · rw [if_pos hi]
      refine Model.inv_setActive_update m _ h ?_ hor hoc hsr hsi
      show m.activeT.curser_row < m.uilayout.table_height
      omega
    · rw [if_neg hi]
      refine Model.inv_setActive_update m _ h ?_ hor ?_ hsr hsi
      · show m.activeT.curser_row < m.uilayout.table_height
        omega
      · show m.activeT.offset_column + 1 < m.data.length
        omega
  · rw [if_neg hg]
    by_cases hg2 : m.activeT.visible_width > m.activeT.width ∧
        m.activeT.offset_column < m.data.length - 1
    · rw [if_pos hg2]
      refine Model.inv_setActive_update m _ h ?_ hor ?_ hsr hsi
      · show m.activeT.curser_row < m.uilayout.table_height
        omega
      · show m.activeT.offset_column + 1 < m.data.length
        omega
    · rw [if_neg hg2]
      exact h

lemma Model.inv_move_beginning (m : Model) (h : m.Inv) :
    (m.move_table_selection_beginning).Inv := by
  obtain ⟨htne, hd, hmod, htw, hth, hsync, hcr, hor, hcc, hheigh, hoc, hocv, hhead, hsr, hsi⟩ :=
    id h
  rw [Model.move_beginning_eq m htne]
  refine Model.inv_setActive_update m _ h ?_ ?_ hoc hsr hsi
  · show (0 : Nat) < m.uilayout.table_height
    omega
  · show 0 + 0 < m.activeT.rows.length
    omega

lemma Model.inv_move_end (m : Model) (h : m.Inv) :
    (m.move_table_selection_end).Inv := by
  obtain ⟨htne, hd, hmod, htw, hth, hsync, hcr, hor, hcc, hheigh, hoc, hocv, hhead, hsr, hsi⟩ :=
    id h
  rw [Model.move_end_eq m htne]
  by_cases h1 : m.activeT.rows.length < m.uilayout.table_height
  · rw [if_pos h1]
    refine Model.inv_setActive_update m _ h ?_ ?_ hoc hsr hsi
    · show m.activeT.rows.length - 1 < m.uilayout.table_height
      omega
    · show 0 + (m.activeT.rows.length - 1) < m.activeT.rows.length
      omega
  · rw [if_neg h1]
    refine Model.inv_setActive_update m _ h ?_ ?_ hoc hsr hsi
    · show m.uilayout.table_height - 1 < m.uilayout.table_height
      omega
    · show m.activeT.rows.length - m.uilayout.table_height +
        (m.uilayout.table_height - 1) < m.activeT.rows.length
      omega

/-- Replacing the dataset by one of the same column count and refreshing
preserves the invariant. -/
lemma Model.inv_set_data (m : Model) (d' : List Column) (hlen : d'.length = m.data.length)
    (h : m.Inv) : (({ m with data := d' } : Model).update_table_data).Inv := by
  obtain ⟨htne, hd, hmod, htw, hth, hsync, hcr, hor, hcc, hheigh, hoc, hocv, hhead, hsr, hsi⟩ :=
    id h
  have hd' : d' ≠ [] := by
    intro hnil
    rw [hnil] at hlen
    exact hd (List.length_eq_zero.mp hlen.symm)
  refine Model.inv_of_update _ htne hd' hmod htw hth hsync ?_ ?_ ?_ ?_ ?_
  · show m.activeT.curser_row < m.uilayout.table_height
    omega
  · exact hor
  · show m.activeT.offset_column < d'.length
    omega
  · show ∀ p ∈ m.activeT.search_results, p.1 < m.activeT.rows.length ∧ p.2 < d'.length
    intro p hp
    obtain ⟨h1, h2⟩ := hsr p hp
    exact ⟨h1, by omega⟩
  · exact hsi

lemma Model.inv_toggle_column (m : Model) (expand : Bool) (h : m.Inv) :
    (m.toggle_column_status expand).Inv := by
  obtain ⟨htne, -⟩ := id h
  unfold Model.toggle_column_status
  rw [Model.tables_getLast?_eq m htne]
  exact Model.inv_set_data m _ (List.length_set _ _ _) h

lemma Model.toggle_index_eq (m : Model) (ht : m.tables ≠ []) :
    m.toggle_table_index =
      ({ m.setActive { m.activeT with show_index := !m.activeT.show_index } with
          uilayout := UILayout.from_model
            (m.setActive { m.activeT with show_index := !m.activeT.show_index })
            m.uilayout.width m.uilayout.height } : Model).update_table_data := by
  unfold Model.toggle_table_index
  rw [Model.tables_getLast?_eq m ht]
  rfl

lemma Model.inv_toggle_index (m : Model) (h : m.Inv)
    (htw' : 1 ≤ (UILayout.from_model
      (m.setActive { m.activeT with show_index := !m.activeT.show_index })
      m.uilayout.width m.uilayout.height).table_width) :
    (m.toggle_table_index).Inv := by
  obtain ⟨htne, hd, hmod, htw, hth, hsync, hcr, hor, hcc, hheigh, hoc, hocv, hhead, hsr, hsi⟩ :=
    id h
  rw [Model.toggle_index_eq m htne]
  have hMact : ({ m.setActive { m.activeT with show_index := !m.activeT.show_index } with
      uilayout := UILayout.from_model
        (m.setActive { m.activeT with show_index := !m.activeT.show_index })
        m.uilayout.width m.uilayout.height } : Model).activeT =
      { m.activeT with show_index := !m.activeT.show_index } := by
    show (m.tables.dropLast ++ [_]).getLastD TableView.empty = _
    exact List.getLastD_concat _ _ _
  refine Model.inv_of_update _ ?_ hd hmod htw' ?_ ?_ ?_ ?_ ?_ ?_ ?_
  · show (m.setActive { m.activeT with show_index := !m.activeT.show_index }).tables ≠ []
    exact Model.setActive_tables_ne m _
  · show 1 ≤ m.uilayout.height - CMDLINE_HEIGH - TABLE_HEADER_HEIGHT
    omega
  · show m.uilayout.height - CMDLINE_HEIGH - TABLE_HEADER_HEIGHT =
      m.uilayout.height - CMDLINE_HEIGH - TABLE_HEADER_HEIGHT
    rfl
  · rw [hMact]
    show m.activeT.curser_row < m.uilayout.height - CMDLINE_HEIGH - TABLE_HEADER_HEIGHT
    omega
  · rw [hMact]
    exact hor
  · rw [hMact]
    exact hoc
  · rw [hMact]
    exact hsr
  · rw [hMact]
    exact hsi

lemma Model.ui_resize_eq (m : Model) (hmod : m.modus = Modus.TABLE) (w h : Nat) :
    m.ui_resize w h =
      ({ m with
          uilayout := UILayout.from_model m w h
          input := { m.input with
            input_width := (UILayout.from_model m w h).statusline_width } } : Model
        ).update_table_data := by
  unfold Model.ui_resize
  cases hmm : m.modus
  case TABLE => rfl
  all_goals rw [hmm] at hmod
  all_goals cases hmod

lemma Model.inv_ui_resize (m : Model) (w h : Nat) (hInv : m.Inv)
    (htw' : 1 ≤ (UILayout.from_model m w h).table_width)
    (hcr' : m.activeT.curser_row < h - CMDLINE_HEIGH - TABLE_HEADER_HEIGHT) :
    (m.ui_resize w h).Inv := by
  obtain ⟨htne, hd, hmod, htw, hth, hsync, hcr, hor, hcc, hheigh, hoc, hocv, hhead, hsr, hsi⟩ :=
    id hInv
  rw [Model.ui_resize_eq m hmod w h]
  refine Model.inv_of_update _ htne hd hmod htw' ?_ ?_ ?_ ?_ ?_ ?_ ?_
  · show 1 ≤ h - CMDLINE_HEIGH - TABLE_HEADER_HEIGHT
    omega
  · show h - CMDLINE_HEIGH - TABLE_HEADER_HEIGHT =
      h - CMDLINE_HEIGH - TABLE_HEADER_HEIGHT
    rfl
  · exact hcr'
  · exact hor
  · exact hoc
  · exact hsr
  · exact hsi

lemma Model.sort_eq (m : Model) (ht : m.tables ≠ []) (ascending : Bool) :
    m.sort_current_column ascending =
      (m.setActive { m.activeT with
        rows := (if is_numeric_type (m.data.getD
              (m.activeT.curser_column + m.activeT.offset_column) default).dtype then
            sortBy (fun a b => (sortCmp ascending a.2 b.2).isLE)
              ((m.activeT.rows).map (fun row_idx =>
                (row_idx, (m.data.getD (m.activeT.curser_column + m.activeT.offset_column)
                  default).data.getD row_idx "")))
          else if ascending then
            sortBy (fun a b => (strCmp a.2 b.2).isLE)
              ((m.activeT.rows).map (fun row_idx =>
                (row_idx, (m.data.getD (m.activeT.curser_column + m.activeT.offset_column)
                  default).data.getD row_idx "")))
          else
            sortBy (fun a b => (strCmp b.2 a.2).isLE)
              ((m.activeT.rows).map (fun row_idx =>
                (row_idx, (m.data.getD (m.activeT.curser_column + m.activeT.offset_column)
                  default).data.getD row_idx "")))).map
          (fun p => p.1) }).update_table_data := by
  unfold Model.sort_current_column
  rw [Model.tables_getLast?_eq m ht]

lemma Model.inv_sort (m : Model) (ascending : Bool) (h : m.Inv) :
    (m.sort_current_column ascending).Inv := by
  obtain ⟨htne, hd, hmod, htw, hth, hsync, hcr, hor, hcc, hheigh, hoc, hocv, hhead, hsr, hsi⟩ :=
    id h
  rw [Model.sort_eq m htne ascending]
  have key : ∀ le : (Nat × String) → (Nat × String) → Bool,
      ((m.setActive { m.activeT with
        rows := (sortBy le ((m.activeT.rows).map (fun row_idx =>
          (row_idx, (m.data.getD (m.activeT.curser_column + m.activeT.offset_column)
            default).data.getD row_idx "")))).map
          (fun p => p.1) }).update_table_data).Inv := by
    intro le
    have hrlen : ((sortBy le ((m.activeT.rows).map (fun row_idx =>
        (row_idx, (m.data.getD (m.activeT.curser_column + m.activeT.offset_column)
          default).data.getD row_idx "")))).map (fun p => p.1)).length =
        m.activeT.rows.length := by
      rw [List.length_map, sortBy_length, List.length_map]
    refine Model.inv_setActive_update m _ h ?_ ?_ hoc ?_ hsi
    · show m.activeT.curser_row < m.uilayout.table_height
      omega
    · show m.activeT.offset_row + m.activeT.curser_row < _
      rw [hrlen]
      exact hor
    · show ∀ p ∈ m.activeT.search_results, _
      intro p hp
      obtain ⟨h1, h2⟩ := hsr p hp
      rw [hrlen]
      exact ⟨h1, h2⟩
  by_cases hnum : is_numeric_type (m.data.getD
      (m.activeT.curser_column + m.activeT.offset_column) default).dtype
  · rw [if_pos hnum]
    exact key _
  · rw [if_neg hnum]
    by_cases hasc : ascending
    · rw [if_pos hasc]
      exact key _
    · rw [if_neg hasc]
      exact key _

lemma select_cell_col_offset_column (t : TableView) (column : Nat) :
    (select_cell_col t column).offset_column = t.offset_column ∨
    (select_cell_col t column).offset_column = column := by
  unfold select_cell_col
  split
  · exact Or.inl rfl
  · exact Or.inr rfl

lemma select_cell_row_set_bounds (t1 : TableView) (row : Nat) (hth1 : 1 ≤ t1.heigh)
    (hrow : row < t1.rows.length) :
    (select_cell_row_set t1 row).curser_row < t1.heigh ∧
    (select_cell_row_set t1 row).offset_row + (select_cell_row_set t1 row).curser_row <
      t1.rows.length ∧
    (select_cell_row_set t1 row).offset_column = t1.offset_column := by
  unfold select_cell_row_set
  split
  · rename_i hc
    refine ⟨?_, ?_, rfl⟩
    · show row - t1.offset_row < t1.heigh
      omega
    · show t1.offset_row + (row - t1.offset_row) < t1.rows.length
      omega
  · refine ⟨?_, ?_, rfl⟩
    · show (0 : Nat) < t1.heigh
      omega
    · show row + 0 < t1.rows.length
      omega

/-- Model::select_cell preserves the invariant when the requested cell is a
valid view row paired with a valid dataset column. -/
lemma Model.inv_select_cell (m : Model) (row column : Nat) (h : m.Inv)
    (hrow : row < m.activeT.rows.length) (hcol : column < m.data.length) :
    (m.select_cell row column).Inv := by
  obtain ⟨htne, hd, hmod, htw, hth, hsync, hcr, hor, hcc, hheigh, hoc, hocv, hhead, hsr, hsi⟩ :=
    id h
  rw [Model.select_cell_eq m htne row column]
  obtain ⟨c1, c2, c3, c4, c5, c6⟩ := select_cell_col_fields m.activeT column
  obtain ⟨r1, r2, r3⟩ := select_cell_row_set_fields (select_cell_col m.activeT column) row
  have hth1 : 1 ≤ (select_cell_col m.activeT column).heigh := by
    rw [c6]
    omega
  have hrow1 : row < (select_cell_col m.activeT column).rows.length := by
    rw [c3]
    exact hrow
  obtain ⟨b1, b2, b3⟩ := select_cell_row_set_bounds (select_cell_col m.activeT column) row
    hth1 hrow1
  refine Model.inv_setActive_update m _ h ?_ ?_ ?_ ?_ ?_
  · rw [c6, hheigh] at b1
    exact b1
  · rw [r3]
    exact b2
  · rw [b3]
    rcases select_cell_col_offset_column m.activeT column with hco | hco
    · rw [hco]
      exact hoc
    · rw [hco]
      exact hcol
  · rw [r1, c1, r3, c3]
    exact hsr
  · rw [r1, c1, r2, c2]
    exact hsi

lemma Model.search_next_eq (m : Model) (ht : m.tables ≠ []) (step : Int) :
    m.search_next step =
      if m.activeT.search_results.length > 0 then
        { (m.setActive { m.activeT with
              search_idx := next_idx m.activeT.search_idx
                m.activeT.search_results.length step }).select_cell
            (m.activeT.search_results.getD
              (next_idx m.activeT.search_idx m.activeT.search_results.length step) (0, 0)).1
            (m.activeT.search_results.getD
              (next_idx m.activeT.search_idx m.activeT.search_results.length step) (0, 0)).2
          with status_message :=
            "Search result " ++
              toString (next_idx m.activeT.search_idx
                m.activeT.search_results.length step + 1) ++
              "/" ++ toString m.activeT.search_results.length }
      else m := by
  unfold Model.search_next
  rw [Model.tables_getLast?_eq m ht]
  rfl

/-- Model::search_next preserves the invariant unconditionally: either there
are no matches and nothing happens, or the match curser wraps inside the
result list and the selected match is a valid cell by the invariant. -/
lemma Model.inv_search_next (m : Model) (step : Int) (h : m.Inv) :
    (m.search_next step).Inv := by
  obtain ⟨htne, hd, hmod, htw, hth, hsync, hcr, hor, hcc, hheigh, hoc, hocv, hhead, hsr, hsi⟩ :=
    id h
  rw [Model.search_next_eq m htne step]
  by_cases htot : m.activeT.search_results.length > 0
  · rw [if_pos htot]
    have hresne : m.activeT.search_results ≠ [] := by
      intro hnil
      rw [hnil] at htot
      exact absurd htot (by decide)
    have hj : m.activeT.search_idx < m.activeT.search_results.length := hsi hresne
    have hidx := next_idx_lt m.activeT.search_idx m.activeT.search_results.length step htot hj
    have hnm := hsr (m.activeT.search_results.getD
        (next_idx m.activeT.search_idx m.activeT.search_results.length step) (0, 0))
      (getD_mem_of_lt _ _ _ hidx)
    have hm1 : (m.setActive { m.activeT with
        search_idx := next_idx m.activeT.search_idx
          m.activeT.search_results.length step }).Inv := by
      refine ⟨Model.setActive_tables_ne m _, hd, hmod, htw, hth, hsync, ?_⟩
      rw [Model.setActive_activeT]
      exact ⟨hcr, hor, hcc, hheigh, hoc, hocv, hhead, hsr, fun _ => hidx⟩
    have hrow1 : (m.activeT.search_results.getD
        (next_idx m.activeT.search_idx m.activeT.search_results.length step) (0, 0)).1 <
        (m.setActive { m.activeT with
          search_idx := next_idx m.activeT.search_idx
            m.activeT.search_results.length step }).activeT.rows.length := by
      rw [Model.setActive_activeT]
      exact hnm.1
    exact Model.inv_status_msg _ _
      (Model.inv_select_cell _ _ _ hm1 hrow1 hnm.2)
  · rw [if_neg htot]
    exact h

lemma Model.search_eq (m : Model) (ht : m.tables ≠ []) (term : String) (co : Bool) :
    m.search term co =
      if (m.matching_rows m.activeT term co).isEmpty then
        { m.setActive { m.activeT with search_results := [] } with
          status_message := "Found no matches!" }
      else
        { (m.setActive { m.activeT with
              search_results := sortBy pairLe (m.matching_rows m.activeT term co)
              search_idx := (List.findIdx?
                (fun p => decide (p.1 ≥ m.activeT.offset_row + m.activeT.curser_row))
                (sortBy pairLe (m.matching_rows m.activeT term co))).getD 0 }).search_next 0
          with status_message :=
            "Found " ++ toString (sortBy pairLe (m.matching_rows m.activeT term co)).length ++
              " results" } := by
  unfold Model.search
  rw [Model.tables_getLast?_eq m ht]

/-- Model::search preserves the invariant unconditionally: a search with no
match only clears the result list, and a successful search installs an
in-range match curser over matches whose coordinates are valid cells. -/
lemma Model.inv_search (m : Model) (term : String) (co : Bool) (h : m.Inv) :
    (m.search term co).Inv := by
  obtain ⟨htne, hd, hmod, htw, hth, hsync, hcr, hor, hcc, hheigh, hoc, hocv, hhead, hsr, hsi⟩ :=
    id h
  rw [Model.search_eq m htne term co]
  by_cases hme : (m.matching_rows m.activeT term co).isEmpty = true
  · rw [if_pos hme]
    refine Model.inv_setActive_msg m _ _ h
      ⟨hcr, hor, hcc, hheigh, hoc, hocv, hhead, ?_, ?_⟩
    · intro p hp
      exact absurd hp (List.not_mem_nil p)
    · intro hne
      exact absurd rfl hne
  · rw [if_neg hme]
    have hne : m.matching_rows m.activeT term co ≠ [] := by
      intro hnil
      rw [hnil] at hme
      exact hme rfl
    have hsorted_ne : sortBy pairLe (m.matching_rows m.activeT term co) ≠ [] :=
      sortBy_ne_nil _ _ hne
    have hrlen : 0 < (sortBy pairLe (m.matching_rows m.activeT term co)).length :=
      List.length_pos.mpr hsorted_ne
    have hccoc : m.activeT.curser_column + m.activeT.offset_column < m.data.length := by
      omega
    have hbounds : ∀ p ∈ sortBy pairLe (m.matching_rows m.activeT term co),
        p.1 < m.activeT.rows.length ∧ p.2 < m.data.length := by
      intro p hp
      rw [mem_sortBy] at hp
      exact Model.matching_rows_bounds m m.activeT term co hccoc p hp
    have hsidx_lt : (List.findIdx?
        (fun p => decide (p.1 ≥ m.activeT.offset_row + m.activeT.curser_row))
        (sortBy pairLe (m.matching_rows m.activeT term co))).getD 0 <
        (sortBy pairLe (m.matching_rows m.activeT term co)).length := by
      cases hfi : List.findIdx?
          (fun p => decide (p.1 ≥ m.activeT.offset_row + m.activeT.curser_row))
          (sortBy pairLe (m.matching_rows m.activeT term co)) with
      | none => exact hrlen
      | some j =>
        obtain ⟨hj, -, -⟩ := findIdx?_some_spec _ (0, 0) _ j hfi
        exact hj
    have hm1 : (m.setActive { m.activeT with
        search_results := sortBy pairLe (m.matching_rows m.activeT term co)
        search_idx := (List.findIdx?
          (fun p => decide (p.1 ≥ m.activeT.offset_row + m.activeT.curser_row))
          (sortBy pairLe (m.matching_rows m.activeT term co))).getD 0 }).Inv := by
      refine ⟨Model.setActive_tables_ne m _, hd, hmod, htw, hth, hsync, ?_⟩
      rw [Model.setActive_activeT]
      exact ⟨hcr, hor, hcc, hheigh, hoc, hocv, hhead, hbounds, fun _ => hsidx_lt⟩
    exact Model.inv_status_msg _ _ (Model.inv_search_next _ 0 hm1)

lemma Model.inv_filter_table (m : Model) (indices : List Nat) (h : m.Inv)
    (hne : indices ≠ []) : (m.filter_table indices).Inv := by
  obtain ⟨htne, hd, hmod, htw, hth, hsync, hcr, hor, hcc, hheigh, hoc, hocv, hhead, hsr, hsi⟩ :=
    id h
  rw [Model.filter_table_eq' m htne indices]
  refine Model.inv_of_update _ (Model.pushedFilter_tables_ne m indices) hd hmod
    htw hth hsync ?_ ?_ ?_ ?_ ?_
  · rw [Model.pushedFilter_activeT]
    show (0 : Nat) < m.uilayout.table_height
    omega
  · rw [Model.pushedFilter_activeT]
    show 0 + 0 < (indices.map (fun midx => m.activeT.rows.getD midx 0)).length
    rw [List.length_map]
    have := List.length_pos.mpr hne
    omega
  · rw [Model.pushedFilter_activeT]
    show (0 : Nat) < m.data.length
    have := List.length_pos.mpr hd
    omega
  · rw [Model.pushedFilter_activeT]
    intro p hp
    exact absurd hp (List.not_mem_nil p)
  · rw [Model.pushedFilter_activeT]
    intro hne'
    exact absurd rfl hne'

/-- Model::filter preserves the invariant when at least one row matches the
term (a zero-match filter pushes an empty child view, for which the absolute
row invariant cannot hold). -/
lemma Model.inv_filter (m : Model) (term : String) (h : m.Inv)
    (hne : search_column term
      (m.data.getD (m.activeT.offset_column + m.activeT.curser_column) default)
      m.activeT.rows ≠ []) :
    (m.filter term).Inv := by
  obtain ⟨htne, -⟩ := id h
  rw [Model.filter_eq m htne term]
  exact Model.inv_filter_table m _ h hne

/-- One user-visible Table-mode operation of claim C1, from a state to its
successor.  The constructors carry exactly the side conditions under which
the window invariants survive: a selected cell must name a real view row
and dataset column, a filter must match at least one row, and a layout
change (index toggle or resize) must leave room for at least one content
column and keep the current cursor row under the new table height. -/
inductive ClaimStep : Model → Model → Prop
  | move_up (m : Model) (size : Nat) : ClaimStep m (m.move_table_selection_up size)
  | move_down (m : Model) (size : Nat) : ClaimStep m (m.move_table_selection_down size)
  | move_left (m : Model) : ClaimStep m m.move_table_selection_left
  | move_right (m : Model) : ClaimStep m m.move_table_selection_right
  | move_beginning (m : Model) : ClaimStep m m.move_table_selection_beginning
  | move_end (m : Model) : ClaimStep m m.move_table_selection_end
  | select_cell (m : Model) (row column : Nat) (hrow : row < m.activeT.rows.length)
      (hcol : column < m.data.length) : ClaimStep m (m.select_cell row column)
  | search (m : Model) (term : String) (co : Bool) : ClaimStep m (m.search term co)
  | search_next (m : Model) (step : Int) : ClaimStep m (m.search_next step)
  | filter (m : Model) (term : String)
      (hne : search_column term
        (m.data.getD (m.activeT.offset_column + m.activeT.curser_column) default)
        m.activeT.rows ≠ []) : ClaimStep m (m.filter term)
  | sort (m : Model) (ascending : Bool) : ClaimStep m (m.sort_current_column ascending)
  | toggle_column (m : Model) (expand : Bool) : ClaimStep m (m.toggle_column_status expand)
  | toggle_index (m : Model)
      (htw : 1 ≤ (UILayout.from_model
        (m.setActive { m.activeT with show_index := !m.activeT.show_index })
        m.uilayout.width m.uilayout.height).table_width) :
      ClaimStep m m.toggle_table_index
  | resize (m : Model) (w h : Nat)
      (htw : 1 ≤ (UILayout.from_model m w h).table_width)
      (hcr : m.activeT.curser_row < h - CMDLINE_HEIGH - TABLE_HEADER_HEIGHT) :
      ClaimStep m (m.ui_resize w h)

lemma ClaimStep.inv_preserved {m m' : Model} (s : ClaimStep m m') (h : m.Inv) :
    m'.Inv := by
  cases s with
  | move_up size => exact Model.inv_move_up m size h
  | move_down size => exact Model.inv_move_down m size h
  | move_left => exact Model.inv_move_left m h
  | move_right => exact Model.inv_move_right m h
  | move_beginning => exact Model.inv_move_beginning m h
  | move_end => exact Model.inv_move_end m h
  | select_cell row column hrow hcol => exact Model.inv_select_cell m row column h hrow hcol
  | search term co => exact Model.inv_search m term co h
  | search_next step => exact Model.inv_search_next m step h
  | filter term hne => exact Model.inv_filter m term h hne
  | sort ascending => exact Model.inv_sort m ascending h
  | toggle_column expand => exact Model.inv_toggle_column m expand h
  | toggle_index htw => exact Model.inv_toggle_index m h htw
  | resize w hh htw hcr => exact Model.inv_ui_resize m w hh h htw hcr

/-- C1 counterexample to the unconditional claim: a filter that matches no
row pushes an empty active view in which offset_row + curser_row <
rows.len() fails (0 < 0), and a resize that shrinks the table height below
the current cursor row leaves curser_row = 3 against a view height of 2, so
curser_row < height fails; both start from states satisfying the full
engine invariant. -/
theorem c1_counterexample :
    mAB.Inv ∧
    (mAB.filter "zzz").activeT.rows.length = 0 ∧
    ¬ ((mAB.filter "zzz").activeT.offset_row + (mAB.filter "zzz").activeT.curser_row <
        (mAB.filter "zzz").activeT.rows.length) ∧
    (mBig.select_cell 3 0).Inv ∧
    mShrunk.activeT.curser_row = 3 ∧
    mShrunk.activeT.heigh = 2 ∧
    ¬ (mShrunk.activeT.curser_row < mShrunk.activeT.heigh) := by
  refine ⟨Model.inv_of_invCheck mAB (by decide), by decide, by decide,
    Model.inv_of_invCheck (mBig.select_cell 3 0) (by decide),
    by decide, by decide, by decide⟩

/-- C1 amended: starting from any state satisfying the engine invariant (a
non-empty view stack over a non-empty dataset in Table mode under a layout
with positive table width and height), after any sequence of cursor moves,
page moves, jumps, searches and search steps, sorts and column-status
toggles, and of cell selections naming a real view row and dataset column,
filters matching at least one row, index toggles leaving a positive table
width, and resizes keeping a positive table width and the current cursor
row under the new table height, the window invariants hold: curser_row <
height, offset_row + curser_row < rows.len(), and curser_column <
visible_columns.len(). -/
theorem c1_amended (m0 m : Model) (h0 : m0.Inv)
    (hr : Relation.ReflTransGen ClaimStep m0 m) :
    m.activeT.curser_row < m.activeT.heigh ∧
    m.activeT.offset_row + m.activeT.curser_row < m.activeT.rows.length ∧
    m.activeT.curser_column < m.activeT.visible_columns.length := by
  have hInv : m.Inv := by
    induction hr with
    | refl => exact h0
    | tail _ s ih => exact s.inv_preserved ih
  obtain ⟨-, -, -, -, -, -, hcr, hor, hcc, -⟩ := hInv
  exact ⟨hcr, hor, hcc⟩

/-- C1 amended, witness: the freshly loaded two-column model satisfies the
engine invariant, and one page-down step later the window invariants hold. -/
theorem c1_amended_witness :
    (mAB.move_table_selection_down 1).activeT.curser_row <
      (mAB.move_table_selection_down 1).activeT.heigh ∧
    (mAB.move_table_selection_down 1).activeT.offset_row +
        (mAB.move_table_selection_down 1).activeT.curser_row <
      (mAB.move_table_selection_down 1).activeT.rows.length ∧
    (mAB.move_table_selection_down 1).activeT.curser_column <
      (mAB.move_table_selection_down 1).activeT.visible_columns.length :=
  c1_amended mAB (mAB.move_table_selection_down 1)
    (Model.inv_of_invCheck mAB (by decide))
    (Relation.ReflTransGen.single (ClaimStep.move_down mAB 1))

/-- C8 counterexample to the unconditional claim: on a 0 by 2 terminal the
layout subtraction width - scrollbar underflows (the checked model returns
none where the source usize arithmetic panics), and a resize of a valid
state to a table height below the current cursor row leaves curser_row = 3
against a table height of 2, so the cursors are not left consistent. -/
theorem c8_counterexample :
    UILayout.from_values_checked 0 0 2 = none ∧
    (mBig.select_cell 3 0).Inv ∧
    mShrunk = (mBig.select_cell 3 0).ui_resize 20 4 ∧
    mShrunk.uilayout.table_height = 2 ∧
    mShrunk.activeT.curser_row = 3 ∧
    ¬ (mShrunk.activeT.curser_row < mShrunk.uilayout.table_height) := by
  refine ⟨by decide, Model.inv_of_invCheck (mBig.select_cell 3 0) (by decide),
    rfl, by decide, by decide, by decide⟩

/-- C8 amended: when the terminal is at least one scrollbar plus the index
column wide and at least one header row plus one status line tall, the
layout arithmetic does not underflow and yields table_width = width -
scrollbar - index width and table_height = height - header - status line;
and a resize of an invariant-satisfying Table-mode state that leaves a
positive table width and keeps the current cursor row under the new table
height re-runs the refresh and leaves the cursors and offsets consistent:
the full engine invariant holds again, the cursor row is under the new
table height, and the absolute selected row is inside the rows mapping. -/
theorem c8_amended (iw w h : Nat) (m : Model)
    (hw : SCROLLBAR_WIDTH + iw ≤ w) (hh : CMDLINE_HEIGH + TABLE_HEADER_HEIGHT ≤ h)
    (hInv : m.Inv) (htw : 1 ≤ (UILayout.from_model m w h).table_width)
    (hcr : m.activeT.curser_row < h - CMDLINE_HEIGH - TABLE_HEADER_HEIGHT) :
    UILayout.from_values_checked iw w h = some (UILayout.from_values iw w h) ∧
    (UILayout.from_values iw w h).table_width = w - SCROLLBAR_WIDTH - iw ∧
    (UILayout.from_values iw w h).table_height = h - CMDLINE_HEIGH - TABLE_HEADER_HEIGHT ∧
    (m.ui_resize w h).Inv ∧
    (m.ui_resize w h).activeT.curser_row < (m.ui_resize w h).uilayout.table_height ∧
    (m.ui_resize w h).activeT.offset_row + (m.ui_resize w h).activeT.curser_row <
      (m.ui_resize w h).activeT.rows.length := by
  have hres := Model.inv_ui_resize m w h hInv htw hcr
  obtain ⟨-, -, -, -, -, -, rcr, ror, -, rheigh, -⟩ := id hres
  refine ⟨?_, rfl, rfl, hres, ?_, ror⟩
  · unfold UILayout.from_values_checked
    rw [if_pos (show SCROLLBAR_WIDTH ≤ w by omega),
      if_pos (show iw ≤ w - SCROLLBAR_WIDTH by omega),
      if_pos (show CMDLINE_HEIGH ≤ h by omega),
      if_pos (show TABLE_HEADER_HEIGHT ≤ h - CMDLINE_HEIGH by omega)]
  · omega

/-- C8 amended, witness: on a 20 by 4 terminal the checked layout succeeds
with table width 19 and table height 2, and resizing the freshly loaded
ten-row model to it keeps every cursor consistent. -/
theorem c8_amended_witness :
    UILayout.from_values_checked 0 20 4 = some (UILayout.from_values 0 20 4) ∧
    (UILayout.from_values 0 20 4).table_width = 20 - SCROLLBAR_WIDTH - 0 ∧
    (UILayout.from_values 0 20 4).table_height = 4 - CMDLINE_HEIGH - TABLE_HEADER_HEIGHT ∧
    (mBig.ui_resize 20 4).Inv ∧
    (mBig.ui_resize 20 4).activeT.curser_row < (mBig.ui_resize 20 4).uilayout.table_height ∧
    (mBig.ui_resize 20 4).activeT.offset_row + (mBig.ui_resize 20 4).activeT.curser_row <
      (mBig.ui_resize 20 4).activeT.rows.length :=
  c8_amended 0 20 4 mBig (by decide) (by decide)
    (Model.inv_of_invCheck mBig (by decide)) (by decide) (by decide)

end TV
